import Mathlib

/-!
Verification of the host-side QEMU helper logic of
`pkg/hostman/guestman/qemu-kvmhelper.go` (cloudpods).

Go strings are modelled as `List Char` (named `Str`); Go slices as `List`;
Go `(T, error)` returns as `Except Str T`; a Go nil-pointer dereference
(a panic, not an error return) is modelled by a dedicated error constructor.

The command-line model (`qemutils.NewCmdline` / `ToString` / `FilterOption` /
`AddOption`) and the text diff/patch collaborator (`diffmatchpatch`) are not
part of the source slice; they are modelled from the specification (spec
sections 4.1 and 4.4) and marked as such in their doc comments.
-/

set_option maxHeartbeats 1000000

/-- Go `string`, modelled as a list of characters. -/
abbrev Str := List Char

/-- Conversion from a Lean string literal to the `Str` model. -/
def str (s : String) : Str := s.data

/-! ## Command-line tokenizer

Modelled from the spec: spec 4.1 "parse(text) → ordered sequence of
CmdlineOption, fails with a ParseError if the text is not a well-formed
flag/value token stream (unbalanced quoting)"; spec section 6: "a
space-separated sequence of `-flag value` tokens".  The tokenizer splits on
spaces outside double quotes and fails on an unbalanced quote. -/

/-- Emit the accumulated token, if nonempty. -/
def flushTok (acc : Str) : List Str :=
  if acc.isEmpty then [] else [acc]

/-- Modelled from the spec: quote-aware tokenizer for the command-line text
format of spec section 6.  `acc` is the token accumulated so far, `inQ`
whether we are inside a double-quoted span.  Fails on unbalanced quoting. -/
def tokAux : List Char → Str → Bool → Except Str (List Str)
  | [], acc, false => .ok (flushTok acc)
  | [], _, true => .error (str "unbalanced quote")
  | c :: cs, acc, inQ =>
    if c = '"' then tokAux cs (acc ++ [c]) (!inQ)
    else if c = ' ' ∧ inQ = false then
      match tokAux cs [] false with
      | .ok ts => .ok (flushTok acc ++ ts)
      | .error e => .error e
    else tokAux cs (acc ++ [c]) inQ

/-- Quote-state transition for one character. -/
def qtoggle (q : Bool) (c : Char) : Bool := if c = '"' then !q else q

/-- Quote state after scanning `cs` starting from state `q`. -/
def qstate (cs : Str) (q : Bool) : Bool := cs.foldl qtoggle q

/-- `true` iff scanning `cs` from quote state `q` never meets a space
outside quotes. -/
def noUnqSpace : Str → Bool → Bool
  | [], _ => true
  | c :: cs, q =>
    if c = '"' then noUnqSpace cs (!q)
    else if c = ' ' ∧ q = false then false
    else noUnqSpace cs q

/-- A well-formed token: nonempty, no unquoted space, balanced quotes. -/
def wfTok (t : Str) : Bool :=
  !t.isEmpty && noUnqSpace t false && (qstate t false == false)

theorem wfTok_iff (t : Str) :
    wfTok t = true ↔ (t ≠ [] ∧ noUnqSpace t false = true ∧ qstate t false = false) := by
  simp [wfTok, and_assoc]

theorem wfTok_isEmpty {t : Str} (h : wfTok t = true) : t.isEmpty = false := by
  rw [wfTok_iff] at h
  cases t with
  | nil => exact absurd rfl h.1
  | cons c cs => rfl

@[simp] theorem qstate_nil (q : Bool) : qstate [] q = q := rfl

theorem qstate_cons (c : Char) (cs : Str) (q : Bool) :
    qstate (c :: cs) q = qstate cs (qtoggle q c) := rfl

theorem qstate_append (xs ys : Str) (q : Bool) :
    qstate (xs ++ ys) q = qstate ys (qstate xs q) := by
  induction xs generalizing q with
  | nil => rfl
  | cons c cs ih => simp [qstate_cons, ih]

theorem noUnqSpace_append (xs ys : Str) (q : Bool) :
    noUnqSpace (xs ++ ys) q = (noUnqSpace xs q && noUnqSpace ys (qstate xs q)) := by
  induction xs generalizing q with
  | nil => simp [noUnqSpace]
  | cons c cs ih =>
    by_cases hc : c = '"'
    · subst hc
      simp [noUnqSpace, qstate_cons, qtoggle, ih]
    · by_cases hs : c = ' ' ∧ q = false
      · simp [noUnqSpace, hc, hs]
      · simp [noUnqSpace, hc, hs, qstate_cons, qtoggle, ih]

/-- Scanning a space-free (outside quotes) chunk just extends the
accumulator. -/
theorem tokAux_chunk (cs : List Char) :
    ∀ (rest : List Char) (acc : Str) (q : Bool), noUnqSpace cs q = true →
    tokAux (cs ++ rest) acc q = tokAux rest (acc ++ cs) (qstate cs q) := by
  induction cs with
  | nil => intro rest acc q _; simp
  | cons c cs ih =>
    intro rest acc q hn
    by_cases hc : c = '"'
    · subst hc
      have hn' : noUnqSpace cs (!q) = true := by
        simpa [noUnqSpace] using hn
      have hstep : tokAux ('"' :: (cs ++ rest)) acc q
          = tokAux (cs ++ rest) (acc ++ ['"']) (!q) := by
        simp [tokAux]
      rw [List.cons_append, hstep, ih rest (acc ++ ['"']) (!q) hn', qstate_cons]
      simp [qtoggle, List.append_assoc]
    · by_cases hs : c = ' ' ∧ q = false
      · exfalso
        obtain ⟨h1, h2⟩ := hs
        subst h1; subst h2
        simp [noUnqSpace] at hn
      · have hn' : noUnqSpace cs q = true := by
          simpa [noUnqSpace, hc, hs] using hn
        have hstep : tokAux (c :: (cs ++ rest)) acc q
            = tokAux (cs ++ rest) (acc ++ [c]) q := by
          simp [tokAux, hc, hs]
        rw [List.cons_append, hstep, ih rest (acc ++ [c]) q hn', qstate_cons]
        simp [qtoggle, hc, List.append_assoc]

theorem tokAux_single (t : Str) (h : wfTok t = true) :
    tokAux t [] false = .ok [t] := by
  have hne : t.isEmpty = false := wfTok_isEmpty h
  obtain ⟨-, hn, hq⟩ := (wfTok_iff t).mp h
  have := tokAux_chunk t [] [] false hn
  simpa [tokAux, hq, flushTok, hne] using this

theorem tokAux_cons (t : Str) (rest : List Char) (h : wfTok t = true) :
    tokAux (t ++ ' ' :: rest) [] false =
      match tokAux rest [] false with
      | .ok ts => .ok (t :: ts)
      | .error e => .error e := by
  have hne : t.isEmpty = false := wfTok_isEmpty h
  obtain ⟨-, hn, hq⟩ := (wfTok_iff t).mp h
  rw [tokAux_chunk t (' ' :: rest) [] false hn, hq]
  have hstep : tokAux (' ' :: rest) t false =
      match tokAux rest [] false with
      | .ok ts => .ok (flushTok t ++ ts)
      | .error e => .error e := by
    simp [tokAux]
  rw [List.nil_append, hstep]
  cases htr : tokAux rest [] false with
  | ok ts => simp [flushTok, hne]
  | error e => simp

/-- Space-join of a token list (model of the serialized option text). -/
def intercalateSp : List Str → Str
  | [] => []
  | [t] => t
  | t :: ts => t ++ ' ' :: intercalateSp ts

theorem intercalateSp_cons (t : Str) (ts : List Str) (h : ts ≠ []) :
    intercalateSp (t :: ts) = t ++ ' ' :: intercalateSp ts := by
  cases ts with
  | nil => exact absurd rfl h
  | cons u us => rfl

/-- Tokenizing the space-join of well-formed tokens recovers the tokens. -/
theorem tokAux_intercalate (ts : List Str) (h : ∀ t ∈ ts, wfTok t = true) :
    tokAux (intercalateSp ts) [] false = .ok ts := by
  induction ts with
  | nil => simp [intercalateSp, tokAux, flushTok]
  | cons t ts ih =>
    cases ts with
    | nil =>
      simpa [intercalateSp] using tokAux_single t (h t (by simp))
    | cons u us =>
      rw [intercalateSp_cons t (u :: us) (by simp)]
      rw [tokAux_cons t _ (h t (by simp))]
      rw [ih (fun x hx => h x (by simp [hx]))]

/-- Every token produced by a successful tokenizer run is well-formed. -/
theorem tokAux_wf (cs : List Char) :
    ∀ (acc : Str) (q : Bool) (ts : List Str),
    noUnqSpace acc false = true → qstate acc false = q →
    tokAux cs acc q = .ok ts → ∀ t ∈ ts, wfTok t = true := by
  induction cs with
  | nil =>
    intro acc q ts hns hqs hok t ht
    cases q with
    | false =>
      simp only [tokAux] at hok
      by_cases hacc : acc.isEmpty
      · simp [flushTok, hacc] at hok; subst hok; simp at ht
      · simp only [flushTok, hacc, if_neg, Bool.false_eq_true, if_false] at hok
        cases hok
        simp at ht
        subst ht
        simp [wfTok, hacc, hns, hqs]
    | true => simp [tokAux] at hok
  | cons c cs ih =>
    intro acc q ts hns hqs hok t ht
    by_cases hc : c = '"'
    · subst hc
      have hstep : tokAux ('"' :: cs) acc q = tokAux cs (acc ++ ['"']) (!q) := by
        simp [tokAux]
      rw [hstep] at hok
      refine ih (acc ++ ['"']) (!q) ts ?_ ?_ hok t ht
      · rw [noUnqSpace_append, hns, hqs]
        simp [noUnqSpace]
      · rw [qstate_append, hqs]
        simp [qstate, qtoggle]
    · by_cases hs : c = ' ' ∧ q = false
      · obtain ⟨hsc, hqf⟩ := hs
        subst hsc; subst hqf
        have hstep : tokAux (' ' :: cs) acc false =
            match tokAux cs [] false with
            | .ok ts' => .ok (flushTok acc ++ ts')
            | .error e => .error e := by
          simp [tokAux]
        rw [hstep] at hok
        cases htr : tokAux cs [] false with
        | ok ts' =>
          rw [htr] at hok
          simp only at hok
          cases hok
          rcases List.mem_append.mp ht with hflush | hrest
          · by_cases hacc : acc.isEmpty
            · simp [flushTok, hacc] at hflush
            · simp only [flushTok, hacc, Bool.false_eq_true, if_false] at hflush
              simp at hflush
              subst hflush
              simp [wfTok, hacc, hns, hqs]
          · exact ih [] false ts' (by simp [noUnqSpace]) (by simp) htr t hrest
        | error e => rw [htr] at hok; simp at hok
      · have hstep : tokAux (c :: cs) acc q = tokAux cs (acc ++ [c]) q := by
          simp [tokAux, hc, hs]
        rw [hstep] at hok
        refine ih (acc ++ [c]) q ts ?_ ?_ hok t ht
        · rw [noUnqSpace_append, hns, hqs]
          cases q with
          | false =>
            have : ¬ c = ' ' := fun hc' => hs ⟨hc', rfl⟩
            simp [noUnqSpace, hc, this]
          | true => simp [noUnqSpace, hc]
        · rw [qstate_append, hqs]
          simp [qstate, qtoggle, hc]

/-! ## Command-line option model

`qemutils.Option` is a key/value pair; a command line is the ordered list of
its options (spec section 3, CmdlineOption). -/

/-- A command-line option: flag name (without the leading dash) and value. -/
structure COption where
  key : Str
  value : Str
deriving DecidableEq

/-- A token that begins a new option: it starts with a dash. -/
def isFlagTok (t : Str) : Bool := t.head? = some '-'

/-- Group a token stream into options: `key`/`vacc` accumulate the current
option, a dash token starts the next one. -/
def groupAux (key : Str) (vacc : List Str) : List Str → List COption
  | [] => [⟨key, intercalateSp vacc⟩]
  | t :: ts =>
    if isFlagTok t then ⟨key, intercalateSp vacc⟩ :: groupAux (t.drop 1) [] ts
    else groupAux key (vacc ++ [t]) ts

/-- Modelled from the spec: grouping of the token stream into `-flag value`
options (spec section 6); a leading non-flag token is not a well-formed
flag/value stream. -/
def groupToks : List Str → Except Str (List COption)
  | [] => .ok []
  | t :: ts =>
    if isFlagTok t then .ok (groupAux (t.drop 1) [] ts)
    else .error (str "not a flag/value token stream")

/-- Modelled from the spec: `qemutils.NewCmdline` — parse a command-line text
into its ordered option sequence (spec 4.1 `parse`). -/
def NewCmdline (input : Str) : Except Str (List COption) :=
  match tokAux input [] false with
  | .error e => .error e
  | .ok ts => groupToks ts

/-- Serialization of one option: `-key value` (or just `-key`). -/
def serializeOpt (o : COption) : Str :=
  if o.value.isEmpty then '-' :: o.key else ('-' :: o.key) ++ ' ' :: o.value

/-- Modelled from the spec: `Cmdline.ToString` — total, lossless
serialization (spec 4.1 `serialize`). -/
def cmdlineToString (opts : List COption) : Str :=
  intercalateSp (opts.map serializeOpt)

/-- The token list a value splits into (empty for an empty value). -/
def valToks (v : Str) : List Str :=
  match tokAux v [] false with
  | .ok ts => ts
  | .error _ => []

/-- A well-formed option value: empty, or a nonempty sequence of well-formed
non-flag tokens joined by single spaces. -/
def wfVal (v : Str) : Bool :=
  v.isEmpty ||
    (match tokAux v [] false with
     | .ok ts =>
       !ts.isEmpty && ts.all (fun t => !(isFlagTok t) && wfTok t)
         && (intercalateSp ts == v)
     | .error _ => false)

/-- A well-formed option, as produced by `NewCmdline`. -/
def wfOpt (o : COption) : Bool := wfTok ('-' :: o.key) && wfVal o.value

/-- The flat token stream a well-formed option list serializes into. -/
def flatToks (opts : List COption) : List Str :=
  opts.flatMap (fun o => ('-' :: o.key) :: valToks o.value)

theorem valToks_of_empty : valToks [] = [] := rfl

theorem wfVal_parts {v : Str} (h : wfVal v = true) (hne : v ≠ []) :
    valToks v ≠ [] ∧ (∀ t ∈ valToks v, isFlagTok t = false ∧ wfTok t = true)
      ∧ intercalateSp (valToks v) = v ∧ tokAux v [] false = .ok (valToks v) := by
  have hne' : v.isEmpty = false := by cases v with
    | nil => exact absurd rfl hne
    | cons a as => rfl
  rw [wfVal, hne'] at h
  simp only [Bool.false_or] at h
  cases htok : tokAux v [] false with
  | error e => rw [htok] at h; simp at h
  | ok ts =>
    rw [htok] at h
    simp only [Bool.and_eq_true, List.all_eq_true, beq_iff_eq] at h
    refine ⟨?_, ?_, ?_, by simp [valToks, htok]⟩
    · simp only [valToks, htok]
      intro hcon
      rw [hcon] at h
      simp at h
    · intro t ht
      simp only [valToks, htok] at ht
      have := h.1.2 t ht
      simp only [Bool.and_eq_true, Bool.not_eq_true'] at this
      exact this
    · simp only [valToks, htok]
      exact h.2

theorem wfOpt_key {o : COption} (h : wfOpt o = true) : wfTok ('-' :: o.key) = true := by
  simp [wfOpt] at h; exact h.1

theorem wfOpt_val {o : COption} (h : wfOpt o = true) : wfVal o.value = true := by
  simp [wfOpt] at h; exact h.2

/-- `serializeOpt` is the space-join of the option's flat tokens. -/
theorem serializeOpt_eq (o : COption) (h : wfOpt o = true) :
    serializeOpt o = intercalateSp (('-' :: o.key) :: valToks o.value) := by
  by_cases hv : o.value = []
  · simp [serializeOpt, hv, valToks_of_empty, intercalateSp]
  · obtain ⟨hvne, -, hjoin, -⟩ := wfVal_parts (wfOpt_val h) hv
    have hve : o.value.isEmpty = false := by cases hv' : o.value with
      | nil => exact absurd hv' hv
      | cons a as => rfl
    rw [serializeOpt, hve]
    rw [intercalateSp_cons _ _ hvne, hjoin]
    simp

theorem intercalateSp_append (xs : List Str) :
    ∀ ys, xs ≠ [] → ys ≠ [] →
    intercalateSp (xs ++ ys) = intercalateSp xs ++ ' ' :: intercalateSp ys := by
  induction xs with
  | nil => intro ys h _; exact absurd rfl h
  | cons x xs ih =>
    intro ys _ hys
    cases hxs : xs with
    | nil =>
      have hne : ys ≠ [] := hys
      simp only [List.nil_append, List.cons_append]
      rw [intercalateSp_cons x ys hne]
      rfl
    | cons x' xs' =>
      subst hxs
      rw [List.cons_append x (x' :: xs') ys]
      rw [intercalateSp_cons x ((x' :: xs') ++ ys) (by simp)]
      rw [ih ys (by simp) hys]
      rw [intercalateSp_cons x (x' :: xs') (by simp)]
      simp [List.append_assoc]

/-- Space-join flattens across groups of tokens. -/
theorem intercalateSp_flatten (tss : List (List Str)) (h : ∀ g ∈ tss, g ≠ []) :
    intercalateSp (tss.map intercalateSp) = intercalateSp tss.flatten := by
  induction tss with
  | nil => rfl
  | cons g gs ih =>
    cases hgs : gs with
    | nil => simp [intercalateSp]
    | cons g' gs' =>
      subst hgs
      have hg : g ≠ [] := h g (by simp)
      have hrest : ∀ x ∈ g' :: gs', x ≠ [] := fun x hx => h x (by simp [hx])
      have hflat : (g' :: gs').flatten ≠ [] := by
        have hg' : g' ≠ [] := hrest g' (by simp)
        cases g' with
        | nil => exact absurd rfl hg'
        | cons a as => simp
      rw [List.map_cons, intercalateSp_cons _ _ (by simp), ih hrest]
      conv_rhs => rw [List.flatten_cons]
      rw [intercalateSp_append g ((g' :: gs').flatten) hg hflat]

theorem flatToks_nil : flatToks [] = [] := rfl

theorem flatToks_cons (o : COption) (opts : List COption) :
    flatToks (o :: opts) = ('-' :: o.key) :: (valToks o.value ++ flatToks opts) := by
  simp [flatToks]

theorem flatToks_wf (opts : List COption) (h : ∀ o ∈ opts, wfOpt o = true) :
    ∀ t ∈ flatToks opts, wfTok t = true := by
  intro t ht
  simp only [flatToks, List.mem_flatMap] at ht
  obtain ⟨o, ho, hto⟩ := ht
  rcases List.mem_cons.mp hto with hkey | hval
  · subst hkey; exact wfOpt_key (h o ho)
  · by_cases hv : o.value = []
    · rw [hv, valToks_of_empty] at hval; simp at hval
    · exact ((wfVal_parts (wfOpt_val (h o ho)) hv).2.1 t hval).2

/-- Serializing a well-formed option list yields the space-join of its flat
token stream. -/
theorem cmdlineToString_eq_flat (opts : List COption)
    (h : ∀ o ∈ opts, wfOpt o = true) :
    cmdlineToString opts = intercalateSp (flatToks opts) := by
  have hmap : opts.map serializeOpt
      = (opts.map (fun o => ('-' :: o.key) :: valToks o.value)).map intercalateSp := by
    rw [List.map_map]
    exact List.map_congr_left (fun o ho => serializeOpt_eq o (h o ho))
  rw [cmdlineToString, hmap,
    intercalateSp_flatten _ (by intro g hg; simp at hg; obtain ⟨o, -, rfl⟩ := hg; simp)]
  rfl

/-- Tokenizing a well-formed serialized option list recovers the flat token
stream. -/
theorem tokAux_cmdlineToString (opts : List COption)
    (h : ∀ o ∈ opts, wfOpt o = true) :
    tokAux (cmdlineToString opts) [] false = .ok (flatToks opts) := by
  rw [cmdlineToString_eq_flat opts h]
  exact tokAux_intercalate _ (flatToks_wf opts h)

/-- Non-flag value tokens are absorbed into the current option accumulator. -/
theorem groupAux_vals (vts : List Str) :
    ∀ (key : Str) (vacc rest : List Str),
    (∀ t ∈ vts, isFlagTok t = false) →
    groupAux key vacc (vts ++ rest) = groupAux key (vacc ++ vts) rest := by
  induction vts with
  | nil => intro key vacc rest _; simp
  | cons v vs ih =>
    intro key vacc rest hnf
    have hv : isFlagTok v = false := hnf v (by simp)
    rw [List.cons_append, groupAux, if_neg (by simp [hv])]
    rw [ih key (vacc ++ [v]) rest (fun t ht => hnf t (by simp [ht]))]
    simp [List.append_assoc]

/-- Grouping the flat token stream of a well-formed option list recovers the
options. -/
theorem groupAux_flat (opts : List COption) :
    ∀ (key : Str) (vacc : List Str),
    (∀ o ∈ opts, wfOpt o = true) →
    groupAux key vacc (flatToks opts) = ⟨key, intercalateSp vacc⟩ :: opts := by
  induction opts with
  | nil => intro key vacc _; simp [flatToks_nil, groupAux]
  | cons o os ih =>
    intro key vacc h
    rw [flatToks_cons, groupAux, if_pos (by simp [isFlagTok])]
    have hvts : ∀ t ∈ valToks o.value, isFlagTok t = false := by
      intro t ht
      by_cases hv : o.value = []
      · rw [hv, valToks_of_empty] at ht; simp at ht
      · exact ((wfVal_parts (wfOpt_val (h o (by simp))) hv).2.1 t ht).1
    rw [List.drop_one, List.tail_cons]
    rw [groupAux_vals (valToks o.value) o.key [] (flatToks os) hvts]
    rw [ih o.key ([] ++ valToks o.value) (fun x hx => h x (by simp [hx]))]
    have hval : intercalateSp ([] ++ valToks o.value) = o.value := by
      by_cases hv : o.value = []
      · simp [hv, valToks_of_empty, intercalateSp]
      · simpa using (wfVal_parts (wfOpt_val (h o (by simp))) hv).2.2.1
    rw [hval]

/-- Round trip: parsing the serialization of a well-formed option list
recovers the list (spec 4.1, testable property 1 of section 8). -/
theorem NewCmdline_cmdlineToString (opts : List COption)
    (h : ∀ o ∈ opts, wfOpt o = true) :
    NewCmdline (cmdlineToString opts) = .ok opts := by
  rw [NewCmdline, tokAux_cmdlineToString opts h]
  cases hopts : opts with
  | nil => simp [flatToks_nil, groupToks]
  | cons o os =>
    have hstep : groupToks (('-' :: o.key) :: (valToks o.value ++ flatToks os))
        = .ok (groupAux (('-' :: o.key).drop 1) [] (valToks o.value ++ flatToks os)) := by
      simp [groupToks, isFlagTok]
    rw [flatToks_cons]
    show groupToks (('-' :: o.key) :: (valToks o.value ++ flatToks os)) = .ok (o :: os)
    rw [hstep]
    rw [List.drop_one, List.tail_cons]
    have h' : ∀ x ∈ o :: os, wfOpt x = true := by rw [← hopts]; exact h
    have hvts : ∀ t ∈ valToks o.value, isFlagTok t = false := by
      intro t ht
      by_cases hv : o.value = []
      · rw [hv, valToks_of_empty] at ht; simp at ht
      · exact ((wfVal_parts (wfOpt_val (h' o (by simp))) hv).2.1 t ht).1
    rw [groupAux_vals (valToks o.value) o.key [] (flatToks os) hvts]
    rw [groupAux_flat os o.key _ (fun x hx => h' x (by simp [hx]))]
    have hval : intercalateSp ([] ++ valToks o.value) = o.value := by
      by_cases hv : o.value = []
      · simp [hv, valToks_of_empty, intercalateSp]
      · simpa using (wfVal_parts (wfOpt_val (h' o (by simp))) hv).2.2.1
    rw [hval]

/-- The value built from accumulated non-flag well-formed tokens is
well-formed. -/
theorem wfVal_intercalate (vacc : List Str)
    (h : ∀ t ∈ vacc, isFlagTok t = false ∧ wfTok t = true) :
    wfVal (intercalateSp vacc) = true := by
  cases hv : vacc with
  | nil => simp [intercalateSp, wfVal]
  | cons v vs =>
    subst hv
    have htok : tokAux (intercalateSp (v :: vs)) [] false = .ok (v :: vs) :=
      tokAux_intercalate _ (fun t ht => (h t ht).2)
    have hne : (intercalateSp (v :: vs)).isEmpty = false := by
      have hv' : v ≠ [] := by
        have := wfTok_isEmpty (h v (by simp)).2
        cases v with
        | nil => simp at this
        | cons a as => simp
      cases vs with
      | nil =>
        simp only [intercalateSp]
        cases v with
        | nil => exact absurd rfl hv'
        | cons a as => rfl
      | cons u us =>
        rw [intercalateSp_cons v (u :: us) (by simp)]
        cases v with
        | nil => exact absurd rfl hv'
        | cons a as => rfl
    rw [wfVal, hne, htok]
    simp only [Bool.false_or, Bool.and_eq_true, List.all_eq_true, beq_iff_eq]
    refine ⟨⟨by simp, ?_⟩, trivial⟩
    intro t ht
    have := h t ht
    simp [this.1, this.2]

/-- Every option produced by grouping well-formed tokens is well-formed. -/
theorem groupAux_wf (ts : List Str) :
    ∀ (key : Str) (vacc : List Str),
    wfTok ('-' :: key) = true →
    (∀ t ∈ vacc, isFlagTok t = false ∧ wfTok t = true) →
    (∀ t ∈ ts, wfTok t = true) →
    ∀ o ∈ groupAux key vacc ts, wfOpt o = true := by
  induction ts with
  | nil =>
    intro key vacc hkey hvacc _ o ho
    simp only [groupAux, List.mem_singleton] at ho
    subst ho
    simp only [wfOpt, Bool.and_eq_true]
    exact ⟨hkey, wfVal_intercalate vacc hvacc⟩
  | cons t ts ih =>
    intro key vacc hkey hvacc hts o ho
    by_cases hf : isFlagTok t = true
    · rw [groupAux, if_pos hf] at ho
      rcases List.mem_cons.mp ho with h1 | h2
      · subst h1
        simp only [wfOpt, Bool.and_eq_true]
        exact ⟨hkey, wfVal_intercalate vacc hvacc⟩
      · have htwf : wfTok t = true := hts t (by simp)
        have hkey' : wfTok ('-' :: t.drop 1) = true := by
          cases t with
          | nil => simp [isFlagTok] at hf
          | cons c cs =>
            simp only [isFlagTok, decide_eq_true_eq, List.head?_cons,
              Option.some.injEq] at hf
            subst hf
            simpa using htwf
        exact ih (t.drop 1) [] hkey' (by simp) (fun x hx => hts x (by simp [hx])) o h2
    · rw [groupAux, if_neg hf] at ho
      refine ih key (vacc ++ [t]) hkey ?_ (fun x hx => hts x (by simp [hx])) o ho
      intro x hx
      rcases List.mem_append.mp hx with h1 | h2
      · exact hvacc x h1
      · have hx2 : x = t := by simpa using h2
        rw [hx2]
        exact ⟨by simpa using hf, hts t (by simp)⟩

/-- Every option produced by a successful parse is well-formed. -/
theorem NewCmdline_wf (input : Str) (opts : List COption)
    (h : NewCmdline input = .ok opts) : ∀ o ∈ opts, wfOpt o = true := by
  rw [NewCmdline] at h
  cases htok : tokAux input [] false with
  | error e => rw [htok] at h; simp at h
  | ok ts =>
    rw [htok] at h
    simp only at h
    have hwf : ∀ t ∈ ts, wfTok t = true :=
      tokAux_wf input [] false ts (by simp [noUnqSpace]) (by simp) htok
    cases hts : ts with
    | nil =>
      subst hts
      simp only [groupToks] at h
      cases h
      simp
    | cons t ts' =>
      subst hts
      by_cases hf : isFlagTok t = true
      · rw [groupToks, if_pos hf] at h
        cases h
        have htwf : wfTok t = true := hwf t (by simp)
        have hkey' : wfTok ('-' :: t.drop 1) = true := by
          cases t with
          | nil => simp [isFlagTok] at hf
          | cons c cs =>
            simp only [isFlagTok, decide_eq_true_eq, List.head?_cons,
              Option.some.injEq] at hf
            subst hf
            simpa using htwf
        exact groupAux_wf ts' (t.drop 1) [] hkey' (by simp)
          (fun x hx => hwf x (by simp [hx]))
      · rw [groupToks, if_neg hf] at h
        simp at h

/-! ## Dynamic-option classifier

From source `qemu-kvmhelper.go` lines 546-576: the predicate passed to
`cl.FilterOption` inside `parseCmdline`. -/

/-- The dynamic-option classifier used by `parseCmdline` (source lines
548-576): incoming endpoint in `tcp:`/`defer` form, `vnc`, `spice`, and the
four monitor-socket `chardev` forms. -/
def isDynamicOption (o : COption) : Bool :=
  if o.key = str "incoming" then
    (str "tcp:").isPrefixOf o.value || (str "defer").isPrefixOf o.value
  else if o.key = str "vnc" then true
  else if o.key = str "spice" then true
  else if o.key = str "chardev" then
    (str "socket,id=hmqmondev").isPrefixOf o.value
      || (str "socket,id=hmpmondev").isPrefixOf o.value
      || (str "socket,id=qmqmondev").isPrefixOf o.value
      || (str "socket,id=qmpmondev").isPrefixOf o.value
  else false

/-- `parseCmdline` (source lines 541-578): parse the input and split off the
dynamic options.  `Cmdline.FilterOption` is modelled from the spec (4.1
`filter`): it partitions the option sequence by the predicate without
reordering either partition; the kept (stable) part remains in the command
line, the removed (dynamic) part is returned alongside. -/
def parseCmdline (input : Str) : Except Str (List COption × List COption) :=
  match NewCmdline input with
  | .error e => .error (str "NewCmdline: " ++ e)
  | .ok opts =>
    .ok (opts.filter (fun o => !(isDynamicOption o)), opts.filter isDynamicOption)

/-! ## Text diff/patch collaborator

Modelled from the spec: section 4.4, the "Generic Sequence Reconciler"
contract (the `diffmatchpatch` library).  `diffMain` produces equal/delete/
insert spans (here: the common-prefix/common-suffix decomposition, a member
of the LCS family of edit scripts); `patchMake` turns a diff into
position-anchored hunks; `patchApply` applies each hunk at its recorded
position if the old text matches there, otherwise at the first location
where the old text occurs, otherwise skips the hunk (fuzzy, fail-open
application, spec 4.3 failure policy), returning the new text and the
per-hunk applied flags. -/

inductive DiffOp where
  | equal (s : Str)
  | delete (s : Str)
  | insert (s : Str)
deriving DecidableEq

/-- Longest common prefix of two character lists. -/
def commonPre : Str → Str → Str
  | a :: as, b :: bs => if a = b then a :: commonPre as bs else []
  | _, _ => []

/-- Longest common suffix of two character lists. -/
def commonSuf (a b : Str) : Str := (commonPre a.reverse b.reverse).reverse

/-- Modelled from the spec: `dmp.DiffMain` — an LCS-family edit script: the
common prefix and suffix are kept as `equal` spans, the differing middles
become one `delete` and one `insert`. -/
def diffMain (a b : Str) : List DiffOp :=
  let p := commonPre a b
  let a1 := a.drop p.length
  let b1 := b.drop p.length
  let s := commonSuf a1 b1
  let ma := a1.take (a1.length - s.length)
  let mb := b1.take (b1.length - s.length)
  [.equal p, .delete ma, .insert mb, .equal s]

/-- A patch hunk: position in the base text, old span, replacement span. -/
structure Hunk where
  pos : Nat
  old : Str
  new : Str
deriving DecidableEq

/-- Modelled from the spec: `dmp.PatchMake` — walk the diff, tracking the
position in the base text; adjacent delete/insert pairs become one
replacement hunk. -/
def patchMake (ds : List DiffOp) (pos : Nat) : List Hunk :=
  match ds with
  | [] => []
  | .equal s :: rest => patchMake rest (pos + s.length)
  | .delete d :: .insert i :: rest => ⟨pos, d, i⟩ :: patchMake rest (pos + d.length)
  | .delete d :: rest => ⟨pos, d, []⟩ :: patchMake rest (pos + d.length)
  | .insert i :: rest => ⟨pos, [], i⟩ :: patchMake rest pos

/-- Does `pat` occur in `text` at position `pos`? -/
def subAt (text : Str) (pos : Nat) (pat : Str) : Bool :=
  (text.drop pos).take pat.length = pat

/-- First position at which `pat` occurs in `text`, if any. -/
def findSub (text pat : Str) : Option Nat :=
  match text with
  | [] => if pat.isEmpty then some 0 else none
  | _ :: rest =>
    if subAt text 0 pat then some 0
    else (findSub rest pat).map (· + 1)

/-- Replace the `old.length` characters at `pos` with `new`. -/
def replaceAt (text : Str) (pos : Nat) (oldLen : Nat) (new : Str) : Str :=
  text.take pos ++ new ++ text.drop (pos + oldLen)

/-- Modelled from the spec: `dmp.PatchApply` — apply each hunk at its
recorded position (shifted by the running length delta) when the old span
matches there; otherwise at the first occurrence of the old span; otherwise
skip the hunk and record `false` for it. -/
def patchApply (hs : List Hunk) (text : Str) (delta : Int) : Str × List Bool :=
  match hs with
  | [] => (text, [])
  | h :: rest =>
    let ip : Int := (h.pos : Int) + delta
    if 0 ≤ ip ∧ ip.toNat + h.old.length ≤ text.length
        ∧ subAt text ip.toNat h.old = true then
      let text' := replaceAt text ip.toNat h.old.length h.new
      let r := patchApply rest text' (delta + (h.new.length : Int) - (h.old.length : Int))
      (r.1, true :: r.2)
    else
      match findSub text h.old with
      | some j =>
        let text' := replaceAt text j h.old.length h.new
        let r := patchApply rest text'
          (delta + ((j : Int) - (h.pos : Int)) + (h.new.length : Int) - (h.old.length : Int))
        (r.1, true :: r.2)
      | none =>
        let r := patchApply rest text delta
        (r.1, false :: r.2)

/-- `_unifyMigrateQemuCmdline` (source lines 580-592): diff the two texts,
make a patch, apply it to the current text.  (The debug log call has no
effect on the result and is not modelled.) -/
def unifyMigrateQemuCmdlineAux (cur src : Str) : Str :=
  (patchApply (patchMake (diffMain cur src) 0) cur 0).1

/-- `unifyMigrateQemuCmdline` (source lines 594-610): parse both texts
(splitting off the current side's dynamic options), align the filtered
current text with the filtered source text, re-parse, re-append the current
side's dynamic options (`AddOption` appends at the end, spec 4.1 `append`),
and serialize. -/
def unifyMigrateQemuCmdline (cur src : Str) : Except Str Str :=
  match parseCmdline cur with
  | .error e => .error (str "parseCmdline current: " ++ e)
  | .ok (curCl, curFilterOpts) =>
    match parseCmdline src with
    | .error e => .error (str "parseCmdline source: " ++ e)
    | .ok (srcCl, _) =>
      let unifyStr := unifyMigrateQemuCmdlineAux (cmdlineToString curCl) (cmdlineToString srcCl)
      match parseCmdline unifyStr with
      | .error e => .error (str "parseCmdline unify: " ++ e)
      | .ok (unifyCl, _) => .ok (cmdlineToString (unifyCl ++ curFilterOpts))

theorem commonPre_prefix_left (a : Str) : ∀ b, commonPre a b <+: a := by
  induction a with
  | nil => intro b; cases b <;> simp [commonPre]
  | cons x as ih =>
    intro b
    cases b with
    | nil => simp [commonPre]
    | cons y bs =>
      by_cases hxy : x = y
      · rw [commonPre, if_pos hxy]
        obtain ⟨t, ht⟩ := ih bs
        exact ⟨t, by rw [List.cons_append, ht]⟩
      · rw [commonPre, if_neg hxy]
        simp

theorem commonPre_prefix_right (a : Str) : ∀ b, commonPre a b <+: b := by
  induction a with
  | nil => intro b; cases b <;> simp [commonPre]
  | cons x as ih =>
    intro b
    cases b with
    | nil => simp [commonPre]
    | cons y bs =>
      by_cases hxy : x = y
      · rw [commonPre, if_pos hxy, hxy]
        obtain ⟨t, ht⟩ := ih bs
        exact ⟨t, by rw [List.cons_append, ht]⟩
      · rw [commonPre, if_neg hxy]
        simp

theorem commonSuf_suffix_left (a b : Str) : commonSuf a b <:+ a := by
  rw [commonSuf]
  have := commonPre_prefix_left a.reverse b.reverse
  rw [← List.reverse_suffix] at this
  simpa using this

theorem commonSuf_suffix_right (a b : Str) : commonSuf a b <:+ b := by
  rw [commonSuf]
  have := commonPre_prefix_right a.reverse b.reverse
  rw [← List.reverse_suffix] at this
  simpa using this

/-- The three-way decomposition computed by `diffMain`: both texts are the
common prefix, a middle, and the common suffix, and the diff records
exactly these spans. -/
theorem diffMain_decomp (a b : Str) :
    ∃ p ma mb s, a = p ++ ma ++ s ∧ b = p ++ mb ++ s ∧
      diffMain a b = [.equal p, .delete ma, .insert mb, .equal s] := by
  refine ⟨commonPre a b,
    (a.drop (commonPre a b).length).take
      ((a.drop (commonPre a b).length).length
        - (commonSuf (a.drop (commonPre a b).length) (b.drop (commonPre a b).length)).length),
    (b.drop (commonPre a b).length).take
      ((b.drop (commonPre a b).length).length
        - (commonSuf (a.drop (commonPre a b).length) (b.drop (commonPre a b).length)).length),
    commonSuf (a.drop (commonPre a b).length) (b.drop (commonPre a b).length),
    ?_, ?_, rfl⟩
  · have h1 : commonPre a b ++ a.drop (commonPre a b).length = a :=
      List.prefix_iff_eq_append.mp (commonPre_prefix_left a b)
    have h2 := List.suffix_iff_eq_append.mp
      (commonSuf_suffix_left (a.drop (commonPre a b).length) (b.drop (commonPre a b).length))
    conv_lhs => rw [← h1, ← h2]
    rw [List.append_assoc]
  · have h1 : commonPre a b ++ b.drop (commonPre a b).length = b :=
      List.prefix_iff_eq_append.mp (commonPre_prefix_right a b)
    have h2 := List.suffix_iff_eq_append.mp
      (commonSuf_suffix_right (a.drop (commonPre a b).length) (b.drop (commonPre a b).length))
    conv_lhs => rw [← h1, ← h2]
    rw [List.append_assoc]

theorem patchApply_single (p ma mb s : Str) :
    (patchApply [⟨p.length, ma, mb⟩] (p ++ ma ++ s) 0).1 = p ++ mb ++ s := by
  have hsub : subAt (p ++ ma ++ s) p.length ma = true := by
    rw [subAt, List.append_assoc, List.drop_left p (ma ++ s)]
    simp [List.take_left]
  have hbound : p.length + ma.length ≤ (p ++ ma ++ s).length := by
    simp
  have hcond : (0 : Int) ≤ ((p.length : Nat) : Int) + 0
      ∧ (((p.length : Nat) : Int) + 0).toNat + ma.length ≤ (p ++ ma ++ s).length
      ∧ subAt (p ++ ma ++ s) (((p.length : Nat) : Int) + 0).toNat ma = true := by
    refine ⟨by positivity, ?_, ?_⟩
    · simp
    · simpa using hsub
  simp only [patchApply, if_pos hcond]
  rw [show (((p.length : Nat) : Int) + 0).toNat = p.length by simp]
  rw [replaceAt]
  have ht : (p ++ ma ++ s).take p.length = p := by
    rw [List.append_assoc]; exact List.take_left p (ma ++ s)
  have hd2 : (p ++ ma ++ s).drop (p.length + ma.length) = s := by
    rw [show p.length + ma.length = (p ++ ma).length by simp]
    exact List.drop_left (p ++ ma) s
  rw [ht, hd2, List.append_assoc]

/-- Applying the patch made from `diffMain a b` to `a` itself yields `b`
exactly: in the reconciliation pipeline the patch is always applied to the
very text it was made from, so the fuzzy fallback never fires. -/
theorem patchApply_patchMake_diffMain (a b : Str) :
    (patchApply (patchMake (diffMain a b) 0) a 0).1 = b := by
  obtain ⟨p, ma, mb, s, hA, hB, hd⟩ := diffMain_decomp a b
  rw [hd]
  have hmk : patchMake [DiffOp.equal p, DiffOp.delete ma, DiffOp.insert mb, DiffOp.equal s] 0
      = [⟨p.length, ma, mb⟩] := by
    simp [patchMake]
  rw [hmk, hA, hB]
  exact patchApply_single p ma mb s

/-- `unifyMigrateQemuCmdlineAux` always returns the source text when fed the
texts the patch was built from. -/
theorem unifyAux_eq (cur src : Str) : unifyMigrateQemuCmdlineAux cur src = src :=
  patchApply_patchMake_diffMain cur src

/-- What `unifyMigrateQemuCmdline` computes, given that both inputs parse:
the stable options of the source followed by the dynamic options of the
current (destination) text. -/
theorem unify_characterization (cur src : Str) (co so : List COption)
    (hc : NewCmdline cur = .ok co) (hs : NewCmdline src = .ok so) :
    unifyMigrateQemuCmdline cur src
      = .ok (cmdlineToString (so.filter (fun o => !(isDynamicOption o))
          ++ co.filter isDynamicOption)) := by
  have hpc : parseCmdline cur
      = .ok (co.filter (fun o => !(isDynamicOption o)), co.filter isDynamicOption) := by
    simp [parseCmdline, hc]
  have hps : parseCmdline src
      = .ok (so.filter (fun o => !(isDynamicOption o)), so.filter isDynamicOption) := by
    simp [parseCmdline, hs]
  have hsrcwf : ∀ o ∈ so.filter (fun o => !(isDynamicOption o)), wfOpt o = true := by
    intro o ho
    exact NewCmdline_wf src so hs o (List.mem_of_mem_filter ho)
  have hrt : NewCmdline (cmdlineToString (so.filter (fun o => !(isDynamicOption o))))
      = .ok (so.filter (fun o => !(isDynamicOption o))) :=
    NewCmdline_cmdlineToString _ hsrcwf
  have hff : (so.filter (fun o => !(isDynamicOption o))).filter (fun o => !(isDynamicOption o))
      = so.filter (fun o => !(isDynamicOption o)) := by
    rw [List.filter_eq_self]
    intro a ha
    exact (List.mem_filter.mp ha).2
  have hpu : parseCmdline (cmdlineToString (so.filter (fun o => !(isDynamicOption o))))
      = .ok (so.filter (fun o => !(isDynamicOption o)),
          (so.filter (fun o => !(isDynamicOption o))).filter isDynamicOption) := by
    simp only [parseCmdline, hrt, hff]
  rw [unifyMigrateQemuCmdline, hpc]
  simp only
  rw [hps]
  simp only
  rw [unifyAux_eq, hpu]

theorem unify_ok_parses (cur src : Str) (out : Str)
    (h : unifyMigrateQemuCmdline cur src = .ok out) :
    ∃ co so, NewCmdline cur = .ok co ∧ NewCmdline src = .ok so := by
  cases hc : NewCmdline cur with
  | error e =>
    rw [unifyMigrateQemuCmdline] at h
    simp [parseCmdline, hc] at h
  | ok co =>
    cases hs : NewCmdline src with
    | error e =>
      rw [unifyMigrateQemuCmdline] at h
      simp [parseCmdline, hc, hs] at h
    | ok so => exact ⟨co, so, rfl, rfl⟩

/-- C2: the dynamic-option classifier used by `parseCmdline` marks an option
as dynamic iff its key is "incoming" with a value starting with "tcp:" or
"defer" (any other incoming form, e.g. an exec: form, is stable); or its key
is "vnc"; or "spice"; or "chardev" with a value starting with one of the
four monitor-socket identifiers.  Every other option is
configuration-stable. -/
theorem claim_C2_classifier (o : COption) :
    isDynamicOption o = true ↔
      ((o.key = str "incoming" ∧ ((str "tcp:") <+: o.value ∨ (str "defer") <+: o.value))
        ∨ o.key = str "vnc"
        ∨ o.key = str "spice"
        ∨ (o.key = str "chardev" ∧
            ((str "socket,id=hmqmondev") <+: o.value
              ∨ (str "socket,id=hmpmondev") <+: o.value
              ∨ (str "socket,id=qmqmondev") <+: o.value
              ∨ (str "socket,id=qmpmondev") <+: o.value))) := by
  rw [isDynamicOption]
  by_cases h1 : o.key = str "incoming"
  · rw [if_pos h1]
    have n2 : ¬(str "incoming" = str "vnc") := by decide
    have n3 : ¬(str "incoming" = str "spice") := by decide
    have n4 : ¬(str "incoming" = str "chardev") := by decide
    simp [h1, n2, n3, n4, List.isPrefixOf_iff_prefix]
  · rw [if_neg h1]
    by_cases h2 : o.key = str "vnc"
    · rw [if_pos h2]
      have n1 : ¬(str "vnc" = str "incoming") := by decide
      simp [h2, n1]
    · rw [if_neg h2]
      by_cases h3 : o.key = str "spice"
      · rw [if_pos h3]
        have n1 : ¬(str "spice" = str "incoming") := by decide
        have n2 : ¬(str "spice" = str "vnc") := by decide
        simp [h3, n1, n2]
      · rw [if_neg h3]
        by_cases h4 : o.key = str "chardev"
        · rw [if_pos h4]
          have n1 : ¬(str "chardev" = str "incoming") := by decide
          have n2 : ¬(str "chardev" = str "vnc") := by decide
          have n3 : ¬(str "chardev" = str "spice") := by decide
          simp [h4, n1, n2, n3, List.isPrefixOf_iff_prefix, or_assoc]
        · simp [h1, h2, h3, h4]

/-- C1: for any pair of texts that both parse, every option of the unified
result that the classifier marks as dynamic is exactly a dynamic option of
the original destination text `cur` (with `cur`'s value, never `src`'s), and
these dynamic options sit re-appended at the end of the unified sequence. -/
theorem claim_C1_dynamic_from_destination (cur src : Str) (co so : List COption)
    (hc : NewCmdline cur = .ok co) (hs : NewCmdline src = .ok so) :
    ∃ out outOpts,
      unifyMigrateQemuCmdline cur src = .ok out
      ∧ NewCmdline out = .ok outOpts
      ∧ outOpts.filter isDynamicOption = co.filter isDynamicOption
      ∧ outOpts
          = outOpts.filter (fun o => !(isDynamicOption o)) ++ outOpts.filter isDynamicOption := by
  have hchar := unify_characterization cur src co so hc hs
  have hwf : ∀ o ∈ so.filter (fun o => !(isDynamicOption o)) ++ co.filter isDynamicOption,
      wfOpt o = true := by
    intro o ho
    rcases List.mem_append.mp ho with h | h
    · exact NewCmdline_wf src so hs o (List.mem_of_mem_filter h)
    · exact NewCmdline_wf cur co hc o (List.mem_of_mem_filter h)
  have hrt := NewCmdline_cmdlineToString _ hwf
  have hstable : (so.filter (fun o => !(isDynamicOption o))).filter isDynamicOption = [] := by
    rw [List.filter_eq_nil_iff]
    intro a ha
    have := (List.mem_filter.mp ha).2
    simp at this
    simp [this]
  have hdyn : (co.filter isDynamicOption).filter isDynamicOption
      = co.filter isDynamicOption := by
    rw [List.filter_eq_self]
    intro a ha
    exact (List.mem_filter.mp ha).2
  have hstable2 : (so.filter (fun o => !(isDynamicOption o))).filter
        (fun o => !(isDynamicOption o))
      = so.filter (fun o => !(isDynamicOption o)) := by
    rw [List.filter_eq_self]
    intro a ha
    exact (List.mem_filter.mp ha).2
  have hdyn2 : (co.filter isDynamicOption).filter (fun o => !(isDynamicOption o)) = [] := by
    rw [List.filter_eq_nil_iff]
    intro a ha
    have := (List.mem_filter.mp ha).2
    simp [this]
  refine ⟨_, _, hchar, hrt, ?_, ?_⟩
  · rw [List.filter_append, hstable, hdyn, List.nil_append]
  · rw [List.filter_append, List.filter_append, hstable, hdyn, hstable2, hdyn2]
    simp

/-- C1 witness: a concrete destination/source pair exercising the theorem. -/
theorem claim_C1_witness :
    ∃ out outOpts,
      unifyMigrateQemuCmdline
          (str "-m 2048 -vnc :1 -incoming tcp:0.0.0.0:4396") (str "-m 4096 -vnc :9")
        = .ok out
      ∧ NewCmdline out = .ok outOpts
      ∧ outOpts.filter isDynamicOption
          = [⟨str "m", str "2048"⟩, ⟨str "vnc", str ":1"⟩,
              ⟨str "incoming", str "tcp:0.0.0.0:4396"⟩].filter isDynamicOption
      ∧ outOpts
          = outOpts.filter (fun o => !(isDynamicOption o))
              ++ outOpts.filter isDynamicOption :=
  claim_C1_dynamic_from_destination
    (str "-m 2048 -vnc :1 -incoming tcp:0.0.0.0:4396") (str "-m 4096 -vnc :9")
    [⟨str "m", str "2048"⟩, ⟨str "vnc", str ":1"⟩, ⟨str "incoming", str "tcp:0.0.0.0:4396"⟩]
    [⟨str "m", str "4096"⟩, ⟨str "vnc", str ":9"⟩] rfl rfl

/-- C4: `unifyMigrateQemuCmdline` returns an error exactly when one of its
two textual inputs fails to parse at the initial parsing step; in
particular, once both inputs parse, the patch step (whose hunks are skipped
rather than raised when they fail to anchor) and the re-parse of the patched
text never produce an error. -/
theorem claim_C4_error_only_on_parse (cur src : Str) :
    (unifyMigrateQemuCmdline cur src).isOk
      = ((NewCmdline cur).isOk && (NewCmdline src).isOk) := by
  cases hc : NewCmdline cur with
  | error e =>
    rw [unifyMigrateQemuCmdline]
    simp [parseCmdline, hc, Except.isOk, Except.toBool]
  | ok co =>
    cases hs : NewCmdline src with
    | error e =>
      rw [unifyMigrateQemuCmdline]
      simp [parseCmdline, hc, hs, Except.isOk, Except.toBool]
    | ok so =>
      rw [unify_characterization cur src co so hc hs]
      simp [Except.isOk, Except.toBool]

/-- C5: reconciliation is idempotent against a fixed source: feeding the
unified result back in as the destination reproduces it unchanged. -/
theorem claim_C5_idempotent (cur src out : Str)
    (h : unifyMigrateQemuCmdline cur src = .ok out) :
    unifyMigrateQemuCmdline out src = .ok out := by
  obtain ⟨co, so, hc, hs⟩ := unify_ok_parses cur src out h
  have hchar := unify_characterization cur src co so hc hs
  rw [hchar] at h
  have hout : out = cmdlineToString (so.filter (fun o => !(isDynamicOption o))
      ++ co.filter isDynamicOption) := by
    cases h; rfl
  have hwf : ∀ o ∈ so.filter (fun o => !(isDynamicOption o)) ++ co.filter isDynamicOption,
      wfOpt o = true := by
    intro o ho
    rcases List.mem_append.mp ho with h' | h'
    · exact NewCmdline_wf src so hs o (List.mem_of_mem_filter h')
    · exact NewCmdline_wf cur co hc o (List.mem_of_mem_filter h')
  have hrt : NewCmdline out
      = .ok (so.filter (fun o => !(isDynamicOption o)) ++ co.filter isDynamicOption) := by
    rw [hout]; exact NewCmdline_cmdlineToString _ hwf
  have hchar2 := unify_characterization out src _ so hrt hs
  rw [hchar2, hout]
  have hstable : (so.filter (fun o => !(isDynamicOption o))).filter isDynamicOption = [] := by
    rw [List.filter_eq_nil_iff]
    intro a ha
    have := (List.mem_filter.mp ha).2
    simp at this
    simp [this]
  have hdyn : (co.filter isDynamicOption).filter isDynamicOption
      = co.filter isDynamicOption := by
    rw [List.filter_eq_self]
    intro a ha
    exact (List.mem_filter.mp ha).2
  rw [List.filter_append, hstable, hdyn, List.nil_append]

/-- The concrete unified output used by the C5 witness. -/
def unifyMigrateQemuCmdlineWitnessOut : Str :=
  str "-m 4096 -vnc :1 -incoming tcp:0.0.0.0:4396"

/-- C5 witness: idempotence at a concrete destination/source pair. -/
theorem claim_C5_witness :
    unifyMigrateQemuCmdline
        (unifyMigrateQemuCmdlineWitnessOut) (str "-m 4096 -vnc :9")
      = .ok unifyMigrateQemuCmdlineWitnessOut := by
  exact claim_C5_idempotent (str "-m 2048 -vnc :1 -incoming tcp:0.0.0.0:4396")
    (str "-m 4096 -vnc :9") unifyMigrateQemuCmdlineWitnessOut rfl

/-- C3 counterexample: the claim states that the text handed to the diff as
the target (the serialization of the source command line after
`parseCmdline`) is the serialization of every option of the parsed source
text.  At the concrete source text `-m 4096 -vnc :9` the two differ: the
`-vnc` option is dynamic and `parseCmdline` filters it out of the source
command line as well, so the diff target is `-m 4096`. -/
theorem claim_C3_counterexample :
    ¬ ((parseCmdline (str "-m 4096 -vnc :9")).map (fun r => cmdlineToString r.1)
        = (NewCmdline (str "-m 4096 -vnc :9")).map cmdlineToString) := by
  intro h
  rw [show (parseCmdline (str "-m 4096 -vnc :9")).map (fun r => cmdlineToString r.1)
      = .ok (str "-m 4096") from rfl] at h
  rw [show (NewCmdline (str "-m 4096 -vnc :9")).map cmdlineToString
      = .ok (str "-m 4096 -vnc :9") from rfl] at h
  injection h with h'
  exact absurd h' (by decide)

/-- C3 (amended): the text handed to the diff as the target to align toward
is the serialization of the *stable* options of the parsed source text — the
source sequence is filtered by the same dynamic-option classifier as the
destination, because `parseCmdline` applies `FilterOption` to every text it
parses. -/
theorem claim_C3_amended (src : Str) (sopts : List COption)
    (hs : NewCmdline src = .ok sopts) :
    (parseCmdline src).map (fun r => cmdlineToString r.1)
      = .ok (cmdlineToString (sopts.filter (fun o => !(isDynamicOption o)))) := by
  simp [parseCmdline, hs, Except.map]

/-- C3 witness: the amended statement at the counterexample's source text. -/
theorem claim_C3_witness :
    (parseCmdline (str "-m 4096 -vnc :9")).map (fun r => cmdlineToString r.1)
      = .ok (cmdlineToString ([⟨str "m", str "4096"⟩, ⟨str "vnc", str ":9"⟩].filter
          (fun o => !(isDynamicOption o)))) :=
  claim_C3_amended _ [⟨str "m", str "4096"⟩, ⟨str "vnc", str ":9"⟩] rfl

/-! ## Guest descriptor, host environment and launch-options model

Data model for `generateStartScript` / `generateStopScript` (source lines
201-539 and 612-655).  Go `map[string]string` metadata is modelled as a
structure holding exactly the keys the source reads; external collaborators
(host capability queries, path helpers, the options package, script
generators, `qemu.GenerateStartOptions`) are fields of an `Env` record. -/

/-- Decimal rendering of a natural (Go `fmt.Sprintf("%d", ·)`). -/
def natStr (n : Nat) : Str := (toString n).data

/-- Decimal rendering of an integer (Go `fmt.Sprintf("%d", ·)`). -/
def intStr (i : Int) : Str := (toString i).data

/-- `api.GuestnetworkJsonDesc`, restricted to the fields this file reads or
writes. -/
structure NicDesc where
  ifname : Str := []
  mac : Str := []
  bridge : Str := []
  ip : Str := []
  numQueues : Nat := 0
  vectors : Option Nat := none
  driver : Str := []
  upscriptPath : Str := []
  downscriptPath : Str := []
deriving DecidableEq

/-- Disk descriptor, restricted to the fields this file touches. -/
structure DiskDesc where
  diskIndex : Nat := 0
  diskPath : Str := []
  driver : Str := []
deriving DecidableEq

/-- Isolated (passthrough) device descriptor: only the address is read. -/
structure IsolatedDev where
  addr : Str := []
deriving DecidableEq

/-- The metadata keys read by the source (lines 71-161): `os_name`,
`disable_usb_kbd`, `os_distribution`, `os_version`, `enable_memclean`,
`disable_isa_serial`, `disable_pvpanic`.  A `none`/`false` field models an
absent key. -/
structure Metadata where
  osName : Option Str := none
  disableUsbKbd : Bool := false
  osDistribution : Str := []
  osVersion : Str := []
  enableMemclean : Bool := false
  disableIsaSerial : Bool := false
  disablePvpanic : Bool := false
deriving DecidableEq

structure Cdrom where
  cdPath : Str := []
deriving DecidableEq

/-- The guest descriptor (`s.Desc`), restricted to the fields this file
reads or writes. -/
structure GuestDesc where
  uuid : Str := []
  name : Str := []
  mem : Nat := 0
  cpu : Nat := 0
  machine : Str := []
  bios : Str := []
  vdi : Str := []
  vga : Str := []
  bootOrder : Str := []
  cdrom : Option Cdrom := none
  nics : List NicDesc := []
  disks : List DiskDesc := []
  isolatedDevices : List IsolatedDev := []
  metadata : Metadata := {}
  extraOptions : List (Str × List Str) := []
  isSlave : Bool := false
  isMaster : Bool := false

/-- The mutable per-guest state the source touches besides the descriptor:
`s.LiveMigrateDestPort` and `s.LiveMigrateUseTls`. -/
structure GuestState where
  desc : GuestDesc := {}
  liveMigrateDestPort : Option Int := none
  liveMigrateUseTls : Bool := false

/-- `options.HostOptions`, restricted to the fields this file reads. -/
structure HostOptions where
  ovnIntegrationBridge : Str := []
  defaultQemuVersion : Str := []
  disableKVM : Bool := false
  hostCpuPassthrough : Bool := false
  logLevel : Str := []
  enableQmpMonitor : Bool := false
  enableVmUuid : Bool := false
  ovmfPath : Str := []
  setVncPassword : Bool := true
  enableVirtioRngDevice : Bool := false
deriving DecidableEq

/-- A resolved host bridge device; only `Bridge()` is read here. -/
structure BridgeDev where
  bridgeName : Str := []
deriving DecidableEq

/-- `qemu.Monitor`. -/
structure Monitor where
  monId : Str := []
  monPort : Int := 0
  monMode : Str := []
deriving DecidableEq

/-- `qemu.GenerateStartOptionsInput`, restricted to the fields this file
assigns (Go zero values as defaults). -/
structure StartInput where
  uuid : Str := []
  mem : Nat := 0
  cpu : Nat := 0
  name : Str := []
  osName : Str := []
  nics : List NicDesc := []
  disks : List DiskDesc := []
  ovnIntegrationBridge : Str := []
  homeDir : Str := []
  hugepagesEnabled : Bool := false
  enableMemfd : Bool := false
  pidFilePath : Str := []
  bios : Str := []
  encryptKeyPath : Str := []
  machine : Str := []
  vncPort : Int := 0
  qemuVersion : Str := []
  qemuArch : Str := []
  isolatedDevicesParams : List Str := []
  enableKVM : Bool := false
  hostCPUPassthrough : Bool := false
  isCPUIntel : Bool := false
  isCPUAMD : Bool := false
  enableNested : Bool := false
  enableLog : Bool := false
  logPath : Str := []
  hmpMonitor : Option Monitor := none
  qmpMonitor : Option Monitor := none
  enableUUID : Bool := false
  bootOrder : Str := []
  cdromPath : Str := []
  ovmfPath : Str := []
  devices : List Str := []
  isVdiSpice : Bool := false
  spicePort : Int := 0
  pciBus : Str := []
  vga : Str := []
  vncPassword : Bool := false
  isKVMSupport : Bool := false
  extraOptions : List Str := []
  enableRNGRandom : Bool := false
  enableSerialDevice : Bool := false
  needMigrate : Bool := false
  liveMigratePort : Int := 0
  liveMigrateUseTLS : Bool := false
  isSlave : Bool := false
  isMaster : Bool := false
  enablePvpanic : Bool := false

/-- The per-invocation data dict (`*jsonutils.JSONDict`), restricted to the
keys the source queries: `encrypt_key`, `vnc_port`, `qemu_version`,
`need_migrate`, `live_migrate_use_tls`. -/
structure StartData where
  encryptKey : Option Str := none
  vncPort : Int := 0
  qemuVersion : Option Str := none
  needMigrate : Bool := false
  liveMigrateUseTls : Bool := false

/-- Failure modes of the script generators: a Go error return, or a runtime
panic (nil-pointer dereference). -/
inductive GenErr where
  | err (msg : Str)
  | nilDeref
deriving DecidableEq

/-- The host-side collaborators consumed by this file (spec section 6):
capability queries, path helpers, per-interface script generation, disk
setup, the QEMU binary resolver, port allocation and the launch-option
renderer, plus the `options.HostOptions` record and the numeric port
bases. -/
structure Env where
  isKvmSupport : Bool
  isHugepagesEnabled : Bool
  isAarch64 : Bool
  hugepageSizeKb : Nat
  cpuArchitecture : Str
  isNestedVirtualization : Bool
  isProcessorIntel : Bool
  isProcessorAmd : Bool
  getBridgeDev : Str → Option BridgeDev
  generateIfupScripts : BridgeDev → Str → NicDesc → Bool → Except Str Unit
  generateIfdownScripts : BridgeDev → Str → NicDesc → Bool → Except Str Unit
  homeDir : Str
  pidFilePath : Str
  vncFilePath : Str
  stateFilePathRootPrefixValue : Str
  qemuLogPath : Str
  encryptKeyPath : Str
  saveEncryptKeyFile : Str → Except Str Unit
  generateDiskSetupScripts : List DiskDesc → Except Str Str
  getIsolatedDeviceQemuParams : List Str → List Str
  getQemu : Str → Str
  vpcOvnEncapCost : Str
  getHmpMonitorPort : Int → Int
  getQmpMonitorPort : Int → Int
  getFreePortByBase : Int → Int
  generateStartOptions : StartInput → Except Str Str
  extraOptionsOrder : List (Str × List Str) → List (Str × List Str)
  hostOptions : HostOptions
  monitorPortBase : Int
  liveMigratePortBase : Int

/-! ### Constants

The OS-name, machine-type, BIOS and disk-driver constants come from the
`qemu`/`api` packages, which are not under src/; their string values are
modelled from the spec's vocabulary (macOS / Android / VMware / Windows OS
families, extended-chipset q35 machine, UEFI firmware, SATA driver). -/

def OS_NAME_LINUX : Str := str "Linux"
def OS_NAME_WINDOWS : Str := str "Windows"
def OS_NAME_MACOS : Str := str "macOS"
def OS_NAME_ANDROID : Str := str "Android"
def OS_NAME_VMWARE : Str := str "VMWare"
def OS_NAME_CIRROS : Str := str "Cirros"
def OS_NAME_OPENWRT : Str := str "OpenWrt"

def MODE_READLINE : Str := str "readline"
def MODE_CONTROL : Str := str "control"

def DISK_DRIVER_SATA : Str := str "sata"

def VM_MACHINE_TYPE_PC : Str := str "pc"
def VM_MACHINE_TYPE_Q35 : Str := str "q35"
def VM_MACHINE_TYPE_ARM_VIRT : Str := str "virt"

def BIOS_UEFI : Str := str "UEFI"

def Arch_aarch64 : Str := str "aarch64"
def Arch_x86_64 : Str := str "x86_64"

/-- Modelled from the spec: `apis.ARCH_X86`, the architecture identifiers of
the x86 family. -/
def ARCH_X86 : List Str := [str "i386", str "x86_64", str "x86"]

/-! ### Accessors (source lines 63-199) -/

/-- `getOsname` (lines 71-76): the `os_name` metadata value, default
Linux. -/
def getOsname (d : GuestDesc) : Str := d.metadata.osName.getD OS_NAME_LINUX

/-- `disableUsbKbd` (lines 78-80). -/
def disableUsbKbd (d : GuestDesc) : Bool := d.metadata.disableUsbKbd

/-- `getOsDistribution` (lines 82-84). -/
def getOsDistribution (d : GuestDesc) : Str := d.metadata.osDistribution

/-- `getOsVersion` (lines 86-88). -/
def getOsVersion (d : GuestDesc) : Str := d.metadata.osVersion

/-- `isOldWindows` (lines 90-99): a Windows version string starting
with "5.". -/
def isOldWindows (d : GuestDesc) : Bool :=
  getOsname d = OS_NAME_WINDOWS
    && 1 < (getOsVersion d).length && (getOsVersion d).take 2 = str "5."

/-- Does `pat` occur anywhere in `s` (Go `strings.Contains`)? -/
def containsSub (s pat : Str) : Bool := (findSub s pat).isSome

/-- `isWindows10` (lines 101-109): distribution contains "windows 10"
case-insensitively. -/
def isWindows10 (d : GuestDesc) : Bool :=
  getOsname d = OS_NAME_WINDOWS
    && containsSub ((getOsDistribution d).map Char.toLower) (str "windows 10")

/-- `isMemcleanEnabled` (lines 111-113). -/
def isMemcleanEnabled (d : GuestDesc) : Bool := d.metadata.enableMemclean

/-- `getMachine` (lines 115-121): default machine type `pc`. -/
def getMachine (d : GuestDesc) : Str :=
  if d.machine = [] then VM_MACHINE_TYPE_PC else d.machine

/-- `getBios` (lines 123-129): default `bios`. -/
def getBios (d : GuestDesc) : Str :=
  if d.bios = [] then str "bios" else d.bios

/-- `isQ35` (lines 131-133). -/
def isQ35 (d : GuestDesc) : Bool := getMachine d = VM_MACHINE_TYPE_Q35

/-- `isVirt` (lines 135-137). -/
def isVirt (d : GuestDesc) : Bool := getMachine d = VM_MACHINE_TYPE_ARM_VIRT

/-- `IsVdiSpice` (lines 67-69). -/
def isVdiSpice (d : GuestDesc) : Bool := d.vdi = str "spice"

/-- `GetPciBus` (lines 147-153). -/
def getPciBus (d : GuestDesc) : Str :=
  if isQ35 d || isVirt d then str "pcie.0" else str "pci.0"

/-- `disableIsaSerialDev` (lines 155-157). -/
def disableIsaSerialDev (d : GuestDesc) : Bool := d.metadata.disableIsaSerial

/-- `disablePvpanicDev` (lines 159-161). -/
def disablePvpanicDev (d : GuestDesc) : Bool := d.metadata.disablePvpanic

/-- `getNicUpScriptPath` (lines 167-170): dereferences the bridge-device
lookup without a nil check — an unresolvable bridge is a panic
(`GenErr.nilDeref`), not an error return. -/
def getNicUpScriptPath (env : Env) (nic : NicDesc) : Except GenErr Str :=
  match env.getBridgeDev nic.bridge with
  | none => .error .nilDeref
  | some dev =>
    .ok (env.homeDir ++ str "/" ++ str "if-up-" ++ dev.bridgeName
      ++ str "-" ++ nic.ifname ++ str ".sh")

/-- `getNicDownScriptPath` (lines 172-175): same nil-dereference hazard. -/
def getNicDownScriptPath (env : Env) (nic : NicDesc) : Except GenErr Str :=
  match env.getBridgeDev nic.bridge with
  | none => .error .nilDeref
  | some dev =>
    .ok (env.homeDir ++ str "/" ++ str "if-down-" ++ dev.bridgeName
      ++ str "-" ++ nic.ifname ++ str ".sh")

/-- `generateNicScripts` (lines 177-191): checks the bridge lookup and
returns an error (not a panic) when it fails, then generates the up/down
scripts. -/
def generateNicScripts (env : Env) (isSlave : Bool) (nic : NicDesc) :
    Except GenErr Unit :=
  match env.getBridgeDev nic.bridge with
  | none => .error (.err (str "Can't find bridge " ++ nic.bridge))
  | some dev =>
    match getNicUpScriptPath env nic with
    | .error e => .error e
    | .ok up =>
      match env.generateIfupScripts dev up nic isSlave with
      | .error e => .error (.err (str "GenerateIfupScripts: " ++ e))
      | .ok _ =>
        match getNicDownScriptPath env nic with
        | .error e => .error e
        | .ok down =>
          match env.generateIfdownScripts dev down nic isSlave with
          | .error e => .error (.err (str "GenerateIfdownScripts: " ++ e))
          | .ok _ => .ok ()

/-- `extraOptions` (lines 201-215): a leading space, then ` -key value` for
every entry (array values contribute one pair per element).  The entries of
`Desc.ExtraOptions` are visited by a Go `range` over a map, whose order the
runtime chooses anew on every call; that choice is an explicit input here,
the environment's `extraOptionsOrder` enumeration of the entry list. -/
def extraOptions (env : Env) (d : GuestDesc) : Str :=
  str " " ++ ((env.extraOptionsOrder d.extraOptions).flatMap
    (fun kv => kv.2.map (fun v => str " -" ++ kv.1 ++ str " " ++ v))).flatten

/-- The per-interface down-script invocation lines (source lines 282-285 and
650-653): `<downscript> <ifname>\n` for each interface, with the panic of
`getNicDownScriptPath` propagated. -/
def nicDownLines (env : Env) : List NicDesc → Except GenErr Str
  | [] => .ok []
  | nic :: rest =>
    match getNicDownScriptPath env nic with
    | .error e => .error e
    | .ok p =>
      match nicDownLines env rest with
      | .error e => .error e
      | .ok restLines => .ok (p ++ str " " ++ nic.ifname ++ str "\n" ++ restLines)

/-- The fixed head of the stop script (source lines 618-648): monitor quit,
process kill, hugepage unmount. -/
def stopScriptHead (env : Env) (uuid : Str) : Str :=
  str "VNC_FILE=" ++ env.vncFilePath ++ str "\n"
    ++ str "PID_FILE=" ++ env.pidFilePath ++ str "\n"
    ++ str "if [ \"$1\" != \"--force\" ] && [ -f $VNC_FILE ]; then\n"
    ++ str "  VNC=`cat $VNC_FILE`\n"
    ++ str "  MON=$(($VNC + " ++ intStr env.monitorPortBase ++ str "))\n"
    ++ str "  echo quit | nc -w 1 127.0.0.1 $MON > /dev/null\n"
    ++ str "  sleep 1\n"
    ++ str "  echo \"Remove VNC $VNC_FILE\"\n"
    ++ str "  rm -f $VNC_FILE\n"
    ++ str "fi\n"
    ++ str "if [ -f $PID_FILE ]; then\n"
    ++ str "  PID=`cat $PID_FILE`\n"
    ++ str "  ps -p $PID > /dev/null\n"
    ++ str "  if [ $? -eq 0 ]; then\n"
    ++ str "    echo \"Kill process $PID\"\n"
    ++ str "    kill -9 $PID > /dev/null 2>&1\n"
    ++ str "  fi\n"
    ++ str "  echo \"Remove PID $PID_FILE\"\n"
    ++ str "  rm -f $PID_FILE\n"
    ++ str "fi\n"
    ++ str "for d in $(ls -d /dev/hugepages/" ++ uuid ++ str "*)\n"
    ++ str "do\n"
    ++ str "  if [ -d $d ]; then\n"
    ++ str "    umount $d\n"
    ++ str "    rm -rf $d\n"
    ++ str "  fi\n"
    ++ str "done\n"

/-- `generateStopScript` (source lines 612-655).  The Go signature has no
error return; the only failure mode is the nil-pointer panic inside
`getNicDownScriptPath` when an interface's bridge does not resolve.  The
`data` argument of the source is unused. -/
def generateStopScript (env : Env) (st : GuestState) : Except GenErr Str :=
  match nicDownLines env st.desc.nics with
  | .error e => .error e
  | .ok lines => .ok (stopScriptHead env st.desc.uuid ++ lines)

/-- The acceleration shell-variable assignment (source lines 331-339):
`-enable-kvm` when KVM is supported and not disabled, `-no-kvm` otherwise on
x86-family architectures, empty otherwise. -/
def kvmArgLine (env : Env) : Str :=
  if env.isKvmSupport && !env.hostOptions.disableKVM then
    str "QEMU_CMD_KVM_ARG=-enable-kvm\n"
  else if env.cpuArchitecture ∈ ARCH_X86 then
    str "QEMU_CMD_KVM_ARG=-no-kvm\n"
  else str "QEMU_CMD_KVM_ARG=\n"

/-- The `nic_speed`/`nic_mtu` shell helper block (source lines 341-360). -/
def nicHelperText (env : Env) : Str :=
  str "\nfunction nic_speed() \x7b\n    $QEMU_CMD $QEMU_CMD_KVM_ARG -device virtio-net-pci,help 2>&1 | grep -q \"\\<speed=\"\n    if [ \"$?\" -eq \"0\" ]; then\n        echo \",speed=$1\"\n    fi\n\x7d\n\nfunction nic_mtu() \x7b\n    local bridge=\"$1\"; shift\n\n    $QEMU_CMD $QEMU_CMD_KVM_ARG -device virtio-net-pci,help 2>&1 | grep -q '\\<host_mtu='\n    if [ \"$?\" -eq \"0\" ]; then\n        local origmtu=\"$(<\"/sys/class/net/$bridge/mtu\")\"\n        if [ -n \"$origmtu\" -a \"$origmtu\" -gt 576 ]; then\n            echo \",host_mtu=$(($origmtu - "
    ++ env.vpcOvnEncapCost ++ str "))\"\n        fi\n    fi\n\x7d\n"

/-- The conditional `--incoming` tail of the start script (source lines
530-536). -/
def incomingTail : Str :=
  str "\nif [ ! -z \"$STATE_FILE\" ] && [ -d \"$STATE_FILE\" ] && [ -f \"$STATE_FILE/content\" ]; then\n    CMD=\"$CMD --incoming \\\"exec: cat $STATE_FILE/content\\\"\"\nelif [ ! -z \"$STATE_FILE\" ] && [ -f \"$STATE_FILE\" ]; then\n    CMD=\"$CMD --incoming \\\"exec: cat $STATE_FILE\\\"\"\nfi\neval $CMD"

/-- The nic re-injection loop (source lines 475-484): VMware driver
override, per-interface script generation (error-checked), and script-path
assignment.  Go mutates the shared nic objects in place; here the updated
list is returned. -/
def reinjectNics (env : Env) (isSlave : Bool) (osName : Str) :
    List NicDesc → Except GenErr (List NicDesc)
  | [] => .ok []
  | nic :: rest =>
    let nic1 := if osName = OS_NAME_VMWARE then { nic with driver := str "vmxnet3" } else nic
    match generateNicScripts env isSlave nic1 with
    | .error (.err m) => .error (.err (str "generateNicScripts for nic: " ++ m))
    | .error .nilDeref => .error .nilDeref
    | .ok _ =>
      match getNicUpScriptPath env nic1, getNicDownScriptPath env nic1 with
      | .ok up, .ok down =>
        match reinjectNics env isSlave osName rest with
        | .error e => .error e
        | .ok rest' =>
          .ok ({ nic1 with upscriptPath := up, downscriptPath := down } :: rest')
      | .error e, _ => .error e
      | _, .error e => .error e

/-- The outcome of `generateStartScript`.  The Go function returns only the
script text and mutates `s` in place; the embedding additionally returns the
finalized `StartInput` (the value handed to `qemu.GenerateStartOptions`) and
the post-call guest state, making the resolved launch options and the
descriptor mutations observable. -/
structure StartResult where
  cmd : Str
  input : StartInput
  st : GuestState

/-- Lines 219-233: the initial `GenerateStartOptionsInput` built from the
descriptor, host options and host capabilities. -/
def startInputInit (env : Env) (st : GuestState) : StartInput :=
  { uuid := st.desc.uuid, mem := st.desc.mem, cpu := st.desc.cpu,
    name := st.desc.name, osName := getOsname st.desc, nics := st.desc.nics,
    disks := st.desc.disks,
    ovnIntegrationBridge := env.hostOptions.ovnIntegrationBridge,
    homeDir := env.homeDir,
    hugepagesEnabled := env.isHugepagesEnabled,
    enableMemfd := isMemcleanEnabled st.desc,
    pidFilePath := env.pidFilePath, bios := getBios st.desc }

/-- Lines 235-241: persist the encryption key, record its path. -/
def applyEncryptKey (env : Env) (data : StartData) (input : StartInput) :
    Except Str StartInput :=
  match data.encryptKey with
  | some key =>
    match env.saveEncryptKeyFile key with
    | .error e => .error (str "save encrypt key file: " ++ e)
    | .ok _ => .ok { input with encryptKeyPath := env.encryptKeyPath }
  | none => .ok input

/-- Lines 246-251, descriptor side: macOS forces machine q35 and UEFI
firmware on `s.Desc` itself. -/
def descMacOS (osName : Str) (d : GuestDesc) : GuestDesc :=
  if osName = OS_NAME_MACOS then
    { d with machine := VM_MACHINE_TYPE_Q35, bios := BIOS_UEFI } else d

/-- Lines 246-251, input side. -/
def inputMacOS (input : StartInput) : StartInput :=
  if input.osName = OS_NAME_MACOS then
    { input with machine := VM_MACHINE_TYPE_Q35, bios := BIOS_UEFI } else input

/-- Lines 253-280: vnc port, qemu version, architecture, isolated-device
parameters. -/
def inputVncArch (env : Env) (data : StartData) (d : GuestDesc) (input : StartInput) :
    StartInput :=
  let qv0 := data.qemuVersion.getD env.hostOptions.defaultQemuVersion
  { input with
    vncPort := data.vncPort,
    qemuVersion := if qv0 = str "latest" then [] else qv0,
    qemuArch := if env.isAarch64 then Arch_aarch64 else Arch_x86_64,
    isolatedDevicesParams :=
      env.getIsolatedDeviceQemuParams (d.isolatedDevices.map (·.addr)) }

/-- Lines 287-294, 296-300 and 302-363: the script text from the teardown
lines up to the `CMD="` opener, before the acceleration variable. -/
def cmdPrefixA (env : Env) (input : StartInput) (downLines diskScripts : Str) : Str :=
  downLines
  ++ (if input.hugepagesEnabled then
        str "mkdir -p /dev/hugepages/" ++ input.uuid ++ str "\n"
        ++ str "mount -t hugetlbfs -o pagesize=" ++ natStr env.hugepageSizeKb
        ++ str "K,size=" ++ natStr input.mem ++ str "M hugetlbfs-" ++ input.uuid
        ++ str " /dev/hugepages/" ++ input.uuid ++ str "\n"
      else [])
  ++ str "sleep 1\n"
  ++ str "echo " ++ intStr input.vncPort ++ str " > " ++ env.vncFilePath ++ str "\n"
  ++ diskScripts
  ++ str "STATE_FILE=`ls -d " ++ env.stateFilePathRootPrefixValue
  ++ str "* | head -n 1`\n"
  ++ str "PID_FILE=" ++ input.pidFilePath ++ str "\n"
  ++ str "DEFAULT_QEMU_CMD='"
  ++ (if env.getQemu input.qemuVersion = [] then env.getQemu []
      else env.getQemu input.qemuVersion)
  ++ str "'\n"
  ++ str "QEMU_CMD=$DEFAULT_QEMU_CMD\n"

/-- Lines 341-363: the helper functions and the `CMD="` opener that follow
the acceleration variable. -/
def cmdPrefixB (env : Env) : Str :=
  nicHelperText env ++ str "CMD=\"$QEMU_CMD $QEMU_CMD_KVM_ARG"

/-- The script text before the rendered launch options: teardown and setup
lines, the acceleration shell variable (lines 331-339) in the middle, then
the shell helpers and `CMD="` opener. -/
def cmdPrefix (env : Env) (input : StartInput) (downLines diskScripts : Str) : Str :=
  cmdPrefixA env input downLines diskScripts ++ kvmArgLine env ++ cmdPrefixB env

/-- Lines 365-377: KVM cpu resolution and debug logging. -/
def inputCpuLog (env : Env) (input : StartInput) : StartInput :=
  let i1 := if env.isKvmSupport && !env.hostOptions.disableKVM then
      { input with
        enableKVM := true,
        hostCPUPassthrough := env.hostOptions.hostCpuPassthrough,
        isCPUIntel := env.isProcessorIntel,
        isCPUAMD := env.isProcessorAmd,
        enableNested := env.isNestedVirtualization }
    else input
  if env.hostOptions.logLevel = str "debug" then
    { i1 with enableLog := true, logPath := env.qemuLogPath } else i1

/-- Lines 379-391: the human monitor, and the structured monitor when
administratively enabled. -/
def inputMonitors (env : Env) (input : StartInput) : StartInput :=
  let i1 :=
    { input with
      hmpMonitor :=
        some ⟨str "hmqmon", env.getHmpMonitorPort input.vncPort, MODE_READLINE⟩ }
  if env.hostOptions.enableQmpMonitor then
    { i1 with
      qmpMonitor :=
        some ⟨str "qmqmon", env.getQmpMonitorPort i1.vncPort, MODE_CONTROL⟩ }
  else i1

/-- Lines 393-401: uuid flag, machine re-read from the (possibly mutated)
descriptor, boot order, cdrom path. -/
def inputMachineBoot (env : Env) (d : GuestDesc) (input : StartInput) : StartInput :=
  let i1 :=
    { input with
      enableUUID := env.hostOptions.enableVmUuid,
      machine := getMachine d, bootOrder := d.bootOrder }
  match d.cdrom with
  | some c => if c.cdPath ≠ [] then { i1 with cdromPath := c.cdPath } else i1
  | none => i1

/-- Lines 403-413: aarch64 forces a UEFI-prefixed firmware; UEFI pulls the
OVMF path from the host options. -/
def inputBiosOvmf (env : Env) (input : StartInput) : StartInput :=
  let i1 := if input.qemuArch = Arch_aarch64 && !(BIOS_UEFI.isPrefixOf input.bios) then
      { input with bios := BIOS_UEFI } else input
  if i1.bios = BIOS_UEFI && i1.ovmfPath = [] then
    { i1 with ovmfPath := env.hostOptions.ovmfPath } else i1

/-- Lines 415-421: more than one queue implies twice as many interrupt
vectors. -/
def vectorNics (nics : List NicDesc) : List NicDesc :=
  nics.map (fun n =>
    if 1 < n.numQueues then { n with vectors := some (n.numQueues * 2) } else n)

/-- Lines 423-431, disk side: macOS forces every disk driver to SATA. -/
def osAdjustDisks (osName : Str) (disks : List DiskDesc) : List DiskDesc :=
  if osName = OS_NAME_MACOS then
    disks.map (fun dk => { dk with driver := DISK_DRIVER_SATA }) else disks

/-- Lines 423-437, nic side: macOS forces e1000 with zero vectors on every
interface; Android keeps only the first interface. -/
def osAdjustNics (osName : Str) (nics : List NicDesc) : List NicDesc :=
  if osName = OS_NAME_MACOS then
    nics.map (fun n => { n with vectors := some 0, driver := str "e1000" })
  else if osName = OS_NAME_ANDROID ∧ 1 < nics.length then nics.take 1
  else nics

/-- Lines 439-458: input devices (xhci/tablet/kbd/gpu on aarch64; usb-kbd
and a pointer device elsewhere, with the legacy-Windows and metadata
suppressions). -/
def inputDevices (d : GuestDesc) (input : StartInput) : StartInput :=
  let devs := if input.qemuArch = Arch_aarch64 then
      [str "qemu-xhci,p2=8,p3=8,id=usb1",
       str "usb-tablet,id=input0,bus=usb1.0,port=1",
       str "usb-kbd,id=input1,bus=usb1.0,port=2",
       str "virtio-gpu-pci,id=video1,max_outputs=1"]
    else
      (if ¬(getOsDistribution d ∈ [OS_NAME_OPENWRT, OS_NAME_CIRROS]
            ∨ isOldWindows d = true ∨ isWindows10 d = true
            ∨ disableUsbKbd d = true) then [str "usb-kbd"] else [])
      ++ (if input.osName = OS_NAME_ANDROID then [str "usb-mouse"]
          else if ¬(isOldWindows d = true) then [str "usb-tablet"] else [])
  { input with devices := input.devices ++ devs }

/-- Lines 460-474: spice/vnc display, pci bus, vga, vnc password, and the
`IsKVMSupport` flag set just before the nic loop. -/
def inputDisplay (env : Env) (data : StartData) (d : GuestDesc) (input : StartInput) :
    StartInput :=
  let i1 :=
    { input with
      isVdiSpice := isVdiSpice d,
      spicePort := 5900 + data.vncPort, pciBus := getPciBus d }
  let i2 := if i1.qemuArch ≠ Arch_aarch64 then
      { i1 with vga := if d.vga = [] then str "std" else d.vga } else i1
  { i2 with
    vncPassword := env.hostOptions.setVncPassword,
    isKVMSupport := env.isKvmSupport }

/-- Lines 486-501: extra options, virtual RNG opt-in, serial device
opt-out. -/
def inputExtra (env : Env) (d : GuestDesc) (input : StartInput) : StartInput :=
  { input with
    extraOptions := input.extraOptions ++ [extraOptions env d],
    enableRNGRandom := env.hostOptions.enableVirtioRngDevice,
    enableSerialDevice := !(disableIsaSerialDev d) }

/-- Lines 503-517: migration role resolution; a migration-receiving guest
allocates a port and records it on the guest state, a slave allocates a
port, a master gets neither. -/
def applyMigrate (env : Env) (st : GuestState) (data : StartData) (d : GuestDesc)
    (input : StartInput) : StartInput × GuestState :=
  if data.needMigrate then
    ({ input with
       needMigrate := true,
       liveMigratePort := env.getFreePortByBase env.liveMigratePortBase,
       liveMigrateUseTLS := data.liveMigrateUseTls },
     { st with
       liveMigrateDestPort := some (env.getFreePortByBase env.liveMigratePortBase),
       liveMigrateUseTls :=
         if data.liveMigrateUseTls then true else st.liveMigrateUseTls })
  else if d.isSlave then
    ({ input with
       isSlave := true,
       liveMigratePort := env.getFreePortByBase env.liveMigratePortBase }, st)
  else if d.isMaster then ({ input with isMaster := true }, st)
  else (input, st)

/-- The `StartInput` after the machine/boot/bios stages (`input` as of
source line 413): macOS normalization, vnc/version/arch, cpu/log, monitors,
machine/boot, bios/OVMF. -/
def startInputMid (env : Env) (data : StartData) (st : GuestState)
    (input1 : StartInput) : StartInput :=
  inputBiosOvmf env
    (inputMachineBoot env (descMacOS input1.osName st.desc)
      (inputMonitors env (inputCpuLog env
        (inputVncArch env data (descMacOS input1.osName st.desc) (inputMacOS input1)))))

/-- The `StartInput` just before the nic re-injection loop (`input` as of
source line 474): devices and display resolved on top of
`startInputMid`. -/
def startInputPre (env : Env) (data : StartData) (st : GuestState)
    (input1 : StartInput) : StartInput :=
  inputDisplay env data (descMacOS input1.osName st.desc)
    (inputDevices (descMacOS input1.osName st.desc) (startInputMid env data st input1))

/-- The finalized `StartInput` handed to `qemu.GenerateStartOptions`
(source line 523): extra options, migration role, pvpanic, and the worked
nic/disk lists written back (they alias `s.Desc.Nics`/`Disks` in Go). -/
def startInputFinal (env : Env) (st : GuestState) (data : StartData)
    (input1 : StartInput) (nics3 : List NicDesc) : StartInput :=
  { (applyMigrate env st data (descMacOS input1.osName st.desc)
      (inputExtra env (descMacOS input1.osName st.desc)
        (startInputPre env data st input1))).1 with
    enablePvpanic := !(disablePvpanicDev (descMacOS input1.osName st.desc)),
    nics := nics3,
    disks := osAdjustDisks (startInputMid env data st input1).osName
      (descMacOS input1.osName st.desc).disks }

/-- The guest state after `generateStartScript` returns: the descriptor
carries the macOS machine/bios normalization and the mutated nic/disk
lists, and the migrate fields set by the migration stage. -/
def finalGuestState (env : Env) (st : GuestState) (data : StartData)
    (input1 : StartInput) (nics3 : List NicDesc) : GuestState :=
  { (applyMigrate env st data (descMacOS input1.osName st.desc)
      (inputExtra env (descMacOS input1.osName st.desc)
        (startInputPre env data st input1))).2 with
    desc :=
      { descMacOS input1.osName st.desc with
        nics := nics3,
        disks := osAdjustDisks (startInputMid env data st input1).osName
          (descMacOS input1.osName st.desc).disks } }

/-- Source lines 523-538: render the launch options and close the
script. -/
def genStartFinal (env : Env) (st : GuestState) (data : StartData)
    (input1 : StartInput) (downLines diskScripts : Str) (nics3 : List NicDesc) :
    Except GenErr StartResult :=
  match env.generateStartOptions (startInputFinal env st data input1 nics3) with
  | .error e => .error (.err (str "GenerateStartCommand: " ++ e))
  | .ok qemuOpts =>
    .ok { cmd := cmdPrefix env
              (inputVncArch env data (descMacOS input1.osName st.desc) (inputMacOS input1))
              downLines diskScripts
            ++ str " " ++ qemuOpts ++ str "\"\n" ++ incomingTail,
          input := startInputFinal env st data input1 nics3,
          st := finalGuestState env st data input1 nics3 }

/-- Source lines 473-484: the nic re-injection loop over the
vector-adjusted, OS-rule-adjusted nic list. -/
def genStartNics (env : Env) (st : GuestState) (data : StartData)
    (input1 : StartInput) (downLines diskScripts : Str) :
    Except GenErr StartResult :=
  match reinjectNics env (descMacOS input1.osName st.desc).isSlave
      (startInputPre env data st input1).osName
      (osAdjustNics (startInputMid env data st input1).osName
        (vectorNics (descMacOS input1.osName st.desc).nics)) with
  | .error e => .error e
  | .ok nics3 => genStartFinal env st data input1 downLines diskScripts nics3

/-- Source lines 296-300: disk setup scripts. -/
def genStartDisks (env : Env) (st : GuestState) (data : StartData)
    (input1 : StartInput) (downLines : Str) : Except GenErr StartResult :=
  match env.generateDiskSetupScripts (descMacOS input1.osName st.desc).disks with
  | .error e => .error (.err (str "generateDiskSetupScripts: " ++ e))
  | .ok diskScripts => genStartNics env st data input1 downLines diskScripts

/-- Source lines 282-285: the interface-teardown lines (panics on an
unresolved bridge). -/
def genStartDown (env : Env) (st : GuestState) (data : StartData)
    (input1 : StartInput) : Except GenErr StartResult :=
  match nicDownLines env (descMacOS input1.osName st.desc).nics with
  | .error e => .error e
  | .ok downLines => genStartDisks env st data input1 downLines

/-- `generateStartScript` (source lines 217-539), assembled from the staged
builders in the Go statement order.  Beyond the Go return value (the script
text), the embedding exposes the finalized `StartInput` (the value handed
to `qemu.GenerateStartOptions`) and the post-call guest state, making the
resolved launch options and the descriptor mutations observable. -/
def generateStartScript (env : Env) (st : GuestState) (data : StartData) :
    Except GenErr StartResult :=
  match applyEncryptKey env data (startInputInit env st) with
  | .error e => .error (.err e)
  | .ok input1 => genStartDown env st data input1

/-- The identity-and-configuration core of a nic: everything except the
generated script paths. -/
def nicCore (n : NicDesc) : Str × Str × Str × Str × Nat × Option Nat × Str :=
  (n.ifname, n.mac, n.bridge, n.ip, n.numQueues, n.vectors, n.driver)

/-- Outside the VMware rule, the nic re-injection loop only fills in the
script paths: every other field survives unchanged, in order. -/
theorem reinjectNics_core (env : Env) (sl : Bool) (osName : Str)
    (hos : osName ≠ OS_NAME_VMWARE) :
    ∀ (nics nics' : List NicDesc), reinjectNics env sl osName nics = .ok nics' →
    nics'.map nicCore = nics.map nicCore := by
  intro nics
  induction nics with
  | nil =>
    intro nics' h
    simp only [reinjectNics] at h
    cases h
    rfl
  | cons nic rest ih =>
    intro nics' h
    simp only [reinjectNics, if_neg hos] at h
    cases hg : generateNicScripts env sl nic with
    | error e =>
      rw [hg] at h
      cases e <;> simp at h
    | ok u =>
      rw [hg] at h
      simp only at h
      cases hup : getNicUpScriptPath env nic with
      | error e => rw [hup] at h; simp at h
      | ok up =>
        cases hdn : getNicDownScriptPath env nic with
        | error e => rw [hup, hdn] at h; simp at h
        | ok down =>
          rw [hup, hdn] at h
          simp only at h
          cases hr : reinjectNics env sl osName rest with
          | error e => rw [hr] at h; simp at h
          | ok rest' =>
            rw [hr] at h
            simp only at h
            cases h
            simp only [List.map_cons, ih rest' hr]
            rfl

/-! ### Field-preservation lemmas for the staged builders -/

theorem applyEncryptKey_osName (env : Env) (data : StartData) (i i' : StartInput)
    (h : applyEncryptKey env data i = .ok i') : i'.osName = i.osName := by
  cases hek : data.encryptKey with
  | none =>
    simp only [applyEncryptKey, hek] at h
    cases h; rfl
  | some key =>
    cases hsv : env.saveEncryptKeyFile key with
    | error e =>
      simp only [applyEncryptKey, hek, hsv] at h
      exact Except.noConfusion h
    | ok u =>
      simp only [applyEncryptKey, hek, hsv] at h
      cases h; rfl

@[simp] theorem inputMacOS_osName (i : StartInput) :
    (inputMacOS i).osName = i.osName := by
  rw [inputMacOS]; split <;> rfl

theorem inputMacOS_bios (i : StartInput) (h : i.osName = OS_NAME_MACOS) :
    (inputMacOS i).bios = BIOS_UEFI := by
  rw [inputMacOS, if_pos h]

@[simp] theorem inputVncArch_osName (env : Env) (data : StartData) (d : GuestDesc)
    (i : StartInput) : (inputVncArch env data d i).osName = i.osName := rfl

@[simp] theorem inputVncArch_machine (env : Env) (data : StartData) (d : GuestDesc)
    (i : StartInput) : (inputVncArch env data d i).machine = i.machine := rfl

@[simp] theorem inputVncArch_bios (env : Env) (data : StartData) (d : GuestDesc)
    (i : StartInput) : (inputVncArch env data d i).bios = i.bios := rfl

@[simp] theorem inputCpuLog_osName (env : Env) (i : StartInput) :
    (inputCpuLog env i).osName = i.osName := by
  rw [inputCpuLog]; split <;> split <;> rfl

@[simp] theorem inputCpuLog_machine (env : Env) (i : StartInput) :
    (inputCpuLog env i).machine = i.machine := by
  rw [inputCpuLog]; split <;> split <;> rfl

@[simp] theorem inputCpuLog_bios (env : Env) (i : StartInput) :
    (inputCpuLog env i).bios = i.bios := by
  rw [inputCpuLog]; split <;> split <;> rfl

@[simp] theorem inputMonitors_osName (env : Env) (i : StartInput) :
    (inputMonitors env i).osName = i.osName := by
  rw [inputMonitors]; split <;> rfl

@[simp] theorem inputMonitors_machine (env : Env) (i : StartInput) :
    (inputMonitors env i).machine = i.machine := by
  rw [inputMonitors]; split <;> rfl

@[simp] theorem inputMonitors_bios (env : Env) (i : StartInput) :
    (inputMonitors env i).bios = i.bios := by
  rw [inputMonitors]; split <;> rfl

@[simp] theorem inputMachineBoot_osName (env : Env) (d : GuestDesc) (i : StartInput) :
    (inputMachineBoot env d i).osName = i.osName := by
  rw [inputMachineBoot]
  split <;> (try split) <;> rfl

@[simp] theorem inputMachineBoot_machine (env : Env) (d : GuestDesc) (i : StartInput) :
    (inputMachineBoot env d i).machine = getMachine d := by
  rw [inputMachineBoot]
  split <;> (try split) <;> rfl

@[simp] theorem inputMachineBoot_bios (env : Env) (d : GuestDesc) (i : StartInput) :
    (inputMachineBoot env d i).bios = i.bios := by
  rw [inputMachineBoot]
  split <;> (try split) <;> rfl

@[simp] theorem inputBiosOvmf_osName (env : Env) (i : StartInput) :
    (inputBiosOvmf env i).osName = i.osName := by
  rw [inputBiosOvmf]; split <;> split <;> rfl

@[simp] theorem inputBiosOvmf_machine (env : Env) (i : StartInput) :
    (inputBiosOvmf env i).machine = i.machine := by
  rw [inputBiosOvmf]; split <;> split <;> rfl

theorem inputBiosOvmf_bios (env : Env) (i : StartInput) (h : i.bios = BIOS_UEFI) :
    (inputBiosOvmf env i).bios = BIOS_UEFI := by
  rw [inputBiosOvmf]
  split <;> split <;> simp [h]

@[simp] theorem inputDevices_osName (d : GuestDesc) (i : StartInput) :
    (inputDevices d i).osName = i.osName := rfl

@[simp] theorem inputDevices_machine (d : GuestDesc) (i : StartInput) :
    (inputDevices d i).machine = i.machine := rfl

@[simp] theorem inputDevices_bios (d : GuestDesc) (i : StartInput) :
    (inputDevices d i).bios = i.bios := rfl

@[simp] theorem inputDisplay_osName (env : Env) (data : StartData) (d : GuestDesc)
    (i : StartInput) : (inputDisplay env data d i).osName = i.osName := by
  rw [inputDisplay]; split <;> rfl

@[simp] theorem inputDisplay_machine (env : Env) (data : StartData) (d : GuestDesc)
    (i : StartInput) : (inputDisplay env data d i).machine = i.machine := by
  rw [inputDisplay]; split <;> rfl

@[simp] theorem inputDisplay_bios (env : Env) (data : StartData) (d : GuestDesc)
    (i : StartInput) : (inputDisplay env data d i).bios = i.bios := by
  rw [inputDisplay]; split <;> rfl

@[simp] theorem inputExtra_osName (env : Env) (d : GuestDesc) (i : StartInput) :
    (inputExtra env d i).osName = i.osName := rfl

@[simp] theorem inputExtra_machine (env : Env) (d : GuestDesc) (i : StartInput) :
    (inputExtra env d i).machine = i.machine := rfl

@[simp] theorem inputExtra_bios (env : Env) (d : GuestDesc) (i : StartInput) :
    (inputExtra env d i).bios = i.bios := rfl

@[simp] theorem applyMigrate_fst_osName (env : Env) (st : GuestState) (data : StartData)
    (d : GuestDesc) (i : StartInput) :
    (applyMigrate env st data d i).1.osName = i.osName := by
  rw [applyMigrate]; split <;> try split
  all_goals try split
  all_goals rfl

@[simp] theorem applyMigrate_fst_machine (env : Env) (st : GuestState) (data : StartData)
    (d : GuestDesc) (i : StartInput) :
    (applyMigrate env st data d i).1.machine = i.machine := by
  rw [applyMigrate]; split <;> try split
  all_goals try split
  all_goals rfl

@[simp] theorem applyMigrate_fst_bios (env : Env) (st : GuestState) (data : StartData)
    (d : GuestDesc) (i : StartInput) :
    (applyMigrate env st data d i).1.bios = i.bios := by
  rw [applyMigrate]; split <;> try split
  all_goals try split
  all_goals rfl

@[simp] theorem descMacOS_nics (os : Str) (d : GuestDesc) :
    (descMacOS os d).nics = d.nics := by
  rw [descMacOS]; split <;> rfl

@[simp] theorem descMacOS_disks (os : Str) (d : GuestDesc) :
    (descMacOS os d).disks = d.disks := by
  rw [descMacOS]; split <;> rfl

theorem descMacOS_machine_macos (d : GuestDesc) :
    (descMacOS OS_NAME_MACOS d).machine = VM_MACHINE_TYPE_Q35 := by
  rw [descMacOS, if_pos rfl]

@[simp] theorem descMacOS_isSlave (os : Str) (d : GuestDesc) :
    (descMacOS os d).isSlave = d.isSlave := by
  rw [descMacOS]; split <;> rfl

theorem osAdjustNics_macos (nics : List NicDesc) :
    osAdjustNics OS_NAME_MACOS nics
      = nics.map (fun n => { n with vectors := some 0, driver := str "e1000" }) := by
  rw [osAdjustNics, if_pos rfl]

theorem osAdjustDisks_macos (disks : List DiskDesc) :
    osAdjustDisks OS_NAME_MACOS disks
      = disks.map (fun dk => { dk with driver := DISK_DRIVER_SATA }) := by
  rw [osAdjustDisks, if_pos rfl]

theorem getMachine_q35 (d : GuestDesc) (h : d.machine = VM_MACHINE_TYPE_Q35) :
    getMachine d = VM_MACHINE_TYPE_Q35 := by
  rw [getMachine, h, if_neg (by decide)]


/-- Inversion of a successful `generateStartScript` run into its five
effectful steps and the shape of its result. -/
theorem generateStartScript_ok_elim (env : Env) (st : GuestState) (data : StartData)
    (r : StartResult) (h : generateStartScript env st data = .ok r) :
    ∃ input1 downLines diskScripts nics3 qemuOpts,
      applyEncryptKey env data (startInputInit env st) = .ok input1
      ∧ nicDownLines env (descMacOS input1.osName st.desc).nics = .ok downLines
      ∧ env.generateDiskSetupScripts (descMacOS input1.osName st.desc).disks
          = .ok diskScripts
      ∧ reinjectNics env (descMacOS input1.osName st.desc).isSlave
          (startInputPre env data st input1).osName
          (osAdjustNics (startInputMid env data st input1).osName
            (vectorNics (descMacOS input1.osName st.desc).nics)) = .ok nics3
      ∧ env.generateStartOptions (startInputFinal env st data input1 nics3) = .ok qemuOpts
      ∧ r = { cmd := cmdPrefix env
                  (inputVncArch env data (descMacOS input1.osName st.desc)
                    (inputMacOS input1)) downLines diskScripts
                ++ str " " ++ qemuOpts ++ str "\"\n" ++ incomingTail,
              input := startInputFinal env st data input1 nics3,
              st := finalGuestState env st data input1 nics3 } := by
  rw [generateStartScript] at h
  cases hek : applyEncryptKey env data (startInputInit env st) with
  | error e => rw [hek] at h; exact Except.noConfusion h
  | ok input1 =>
    rw [hek] at h
    have h1 : genStartDown env st data input1 = .ok r := h
    rw [genStartDown] at h1
    cases hnd : nicDownLines env (descMacOS input1.osName st.desc).nics with
    | error e => rw [hnd] at h1; exact Except.noConfusion h1
    | ok downLines =>
      rw [hnd] at h1
      have h2 : genStartDisks env st data input1 downLines = .ok r := h1
      rw [genStartDisks] at h2
      cases hds : env.generateDiskSetupScripts (descMacOS input1.osName st.desc).disks with
      | error e => rw [hds] at h2; exact Except.noConfusion h2
      | ok diskScripts =>
        rw [hds] at h2
        have h3 : genStartNics env st data input1 downLines diskScripts = .ok r := h2
        rw [genStartNics] at h3
        cases hrj : reinjectNics env (descMacOS input1.osName st.desc).isSlave
            (startInputPre env data st input1).osName
            (osAdjustNics (startInputMid env data st input1).osName
              (vectorNics (descMacOS input1.osName st.desc).nics)) with
        | error e => rw [hrj] at h3; exact Except.noConfusion h3
        | ok nics3 =>
          rw [hrj] at h3
          have h4 : genStartFinal env st data input1 downLines diskScripts nics3
              = .ok r := h3
          rw [genStartFinal] at h4
          cases hqo : env.generateStartOptions (startInputFinal env st data input1 nics3) with
          | error e => rw [hqo] at h4; exact Except.noConfusion h4
          | ok qemuOpts =>
            rw [hqo] at h4
            injection h4 with h5
            exact ⟨input1, downLines, diskScripts, nics3, qemuOpts,
              rfl, hnd, hds, hrj, hqo, h5.symm⟩

/-- C6: for every guest whose OS family is macOS, the resolved launch
options produced by `generateStartScript` have machine type forced to q35,
firmware forced to UEFI, every disk driver set to SATA, and every network
interface set to the fixed legacy driver `e1000` with vector count 0 —
regardless of the disk/nic lists' contents. -/
theorem claim_C6_macos_rules (env : Env) (st : GuestState) (data : StartData)
    (r : StartResult)
    (hos : getOsname st.desc = OS_NAME_MACOS)
    (h : generateStartScript env st data = .ok r) :
    r.input.machine = VM_MACHINE_TYPE_Q35
    ∧ r.input.bios = BIOS_UEFI
    ∧ (∀ dk ∈ r.input.disks, dk.driver = DISK_DRIVER_SATA)
    ∧ (∀ n ∈ r.input.nics, n.driver = str "e1000" ∧ n.vectors = some 0) := by
  obtain ⟨input1, downLines, diskScripts, nics3, qemuOpts, hek, hnd, hds, hrj, hqo, hr⟩ :=
    generateStartScript_ok_elim env st data r h
  have hos1 : input1.osName = OS_NAME_MACOS := by
    rw [applyEncryptKey_osName env data _ input1 hek]
    exact hos
  have hmid : (startInputMid env data st input1).osName = OS_NAME_MACOS := by
    simp only [startInputMid, inputBiosOvmf_osName, inputMachineBoot_osName,
      inputMonitors_osName, inputCpuLog_osName, inputVncArch_osName, inputMacOS_osName]
    exact hos1
  have hpre : (startInputPre env data st input1).osName = OS_NAME_MACOS := by
    simp only [startInputPre, inputDisplay_osName, inputDevices_osName]
    exact hmid
  subst hr
  refine ⟨?_, ?_, ?_, ?_⟩
  · show (startInputFinal env st data input1 nics3).machine = VM_MACHINE_TYPE_Q35
    simp only [startInputFinal, applyMigrate_fst_machine, inputExtra_machine,
      startInputPre, inputDisplay_machine, inputDevices_machine, startInputMid,
      inputBiosOvmf_machine, inputMachineBoot_machine, hos1]
    exact getMachine_q35 _ (descMacOS_machine_macos st.desc)
  · show (startInputFinal env st data input1 nics3).bios = BIOS_UEFI
    simp only [startInputFinal, applyMigrate_fst_bios, inputExtra_bios,
      startInputPre, inputDisplay_bios, inputDevices_bios, startInputMid]
    refine inputBiosOvmf_bios env _ ?_
    simp only [inputMachineBoot_bios, inputMonitors_bios, inputCpuLog_bios,
      inputVncArch_bios]
    exact inputMacOS_bios input1 hos1
  · show ∀ dk ∈ (startInputFinal env st data input1 nics3).disks,
      dk.driver = DISK_DRIVER_SATA
    simp only [startInputFinal]
    rw [hmid, osAdjustDisks_macos]
    intro dk hdk
    obtain ⟨dk0, -, rfl⟩ := List.mem_map.mp hdk
    rfl
  · show ∀ n ∈ (startInputFinal env st data input1 nics3).nics,
      n.driver = str "e1000" ∧ n.vectors = some 0
    simp only [startInputFinal]
    intro n hn
    rw [hpre, hmid, osAdjustNics_macos] at hrj
    have hcore := reinjectNics_core env (descMacOS input1.osName st.desc).isSlave
      OS_NAME_MACOS (by decide) _ nics3 hrj
    have hmem : nicCore n ∈ nics3.map nicCore := List.mem_map_of_mem nicCore hn
    rw [hcore] at hmem
    obtain ⟨m, hm, heq⟩ := List.mem_map.mp hmem
    obtain ⟨m0, -, rfl⟩ := List.mem_map.mp hm
    constructor
    · have hc := congrArg (fun t => t.2.2.2.2.2.2) heq
      simpa [nicCore] using hc.symm
    · have hc := congrArg (fun t => t.2.2.2.2.2.1) heq
      simpa [nicCore] using hc.symm

/-- The identity of a nic as the guest configures it: every field except
the mutable script paths and the interrupt-vector count. -/
def nicIdent (n : NicDesc) : Str × Str × Str × Str × Nat × Str :=
  (n.ifname, n.mac, n.bridge, n.ip, n.numQueues, n.driver)

/-- Dropping the vector count from `nicCore` leaves `nicIdent`. -/
def coreIdent (t : Str × Str × Str × Str × Nat × Option Nat × Str) :
    Str × Str × Str × Str × Nat × Str :=
  (t.1, t.2.1, t.2.2.1, t.2.2.2.1, t.2.2.2.2.1, t.2.2.2.2.2.2)

theorem vectorNics_ident (nics : List NicDesc) :
    (vectorNics nics).map nicIdent = nics.map nicIdent := by
  simp only [vectorNics, List.map_map]
  apply List.map_congr_left
  intro n _
  simp only [Function.comp]
  split <;> rfl

theorem vectorNics_length (nics : List NicDesc) :
    (vectorNics nics).length = nics.length := by
  simp [vectorNics]

/-- C7: for every guest whose OS family is Android and which configures
more than one network interface, the resolved launch options retain
exactly one network interface — the first of the configured list (its
identity fields are those of the head of the descriptor's nic list). -/
theorem claim_C7_android_single_nic (env : Env) (st : GuestState) (data : StartData)
    (r : StartResult)
    (hos : getOsname st.desc = OS_NAME_ANDROID)
    (hn : 1 < st.desc.nics.length)
    (h : generateStartScript env st data = .ok r) :
    r.input.nics.length = 1
    ∧ r.input.nics.map nicIdent = (st.desc.nics.map nicIdent).take 1 := by
  obtain ⟨input1, downLines, diskScripts, nics3, qemuOpts, hek, hnd, hds, hrj, hqo, hr⟩ :=
    generateStartScript_ok_elim env st data r h
  have hos1 : input1.osName = OS_NAME_ANDROID := by
    rw [applyEncryptKey_osName env data _ input1 hek]
    exact hos
  have hmid : (startInputMid env data st input1).osName = OS_NAME_ANDROID := by
    simp only [startInputMid, inputBiosOvmf_osName, inputMachineBoot_osName,
      inputMonitors_osName, inputCpuLog_osName, inputVncArch_osName, inputMacOS_osName]
    exact hos1
  have hpre : (startInputPre env data st input1).osName = OS_NAME_ANDROID := by
    simp only [startInputPre, inputDisplay_osName, inputDevices_osName]
    exact hmid
  rw [hpre, hmid, descMacOS_nics] at hrj
  have hlen : 1 < (vectorNics st.desc.nics).length := by
    rw [vectorNics_length]
    exact hn
  simp only [osAdjustNics] at hrj
  rw [if_neg (by decide : ¬(OS_NAME_ANDROID = OS_NAME_MACOS)),
    if_pos ⟨trivial, hlen⟩] at hrj
  have hcore := reinjectNics_core env (descMacOS input1.osName st.desc).isSlave
    OS_NAME_ANDROID (by decide) _ nics3 hrj
  subst hr
  constructor
  · show (startInputFinal env st data input1 nics3).nics.length = 1
    have h4 := congrArg List.length hcore
    simp only [List.length_map, List.length_take, vectorNics_length] at h4
    show nics3.length = 1
    omega
  · show (startInputFinal env st data input1 nics3).nics.map nicIdent
      = (st.desc.nics.map nicIdent).take 1
    show nics3.map nicIdent = (st.desc.nics.map nicIdent).take 1
    have h3 := congrArg (List.map coreIdent) hcore
    simp only [List.map_map] at h3
    have h5 : nics3.map nicIdent
        = ((vectorNics st.desc.nics).take 1).map nicIdent := h3
    rw [h5, List.map_take, vectorNics_ident]

theorem findSub_here (text pat : Str) (h : text.take pat.length = pat) :
    (findSub text pat).isSome = true := by
  cases text with
  | nil =>
    have hpe : pat = [] := by
      rw [← h]
      simp
    subst hpe
    rfl
  | cons c cs =>
    rw [findSub]
    have hs : subAt (c :: cs) 0 pat = true := by
      rw [subAt, List.drop_zero]
      exact decide_eq_true h
    rw [if_pos hs]
    rfl

theorem containsSub_append (a pat b : Str) :
    containsSub (a ++ (pat ++ b)) pat = true := by
  rw [containsSub]
  induction a with
  | nil =>
    rw [List.nil_append]
    exact findSub_here (pat ++ b) pat (List.take_left pat b)
  | cons x a' ih =>
    rw [List.cons_append, findSub]
    split
    · rfl
    · simpa using ih

theorem containsSub_of_split (s a pat b : Str) (hs : s = a ++ (pat ++ b)) :
    containsSub s pat = true := by
  rw [hs]
  exact containsSub_append a pat b

/-- C8: when KVM is unsupported or administratively disabled, the start
script sets the acceleration shell variable to the emulation-mode marker on
x86-family hosts, and to empty (neither marker occurs in the assignment)
elsewhere; when KVM is available and enabled, the variable is the
acceleration marker.  In each case the exact assignment line occurs in the
generated script text. -/
theorem claim_C8_kvm_flag (env : Env) (st : GuestState) (data : StartData)
    (r : StartResult) (h : generateStartScript env st data = .ok r) :
    ((env.isKvmSupport = false ∨ env.hostOptions.disableKVM = true) →
      (env.cpuArchitecture ∈ ARCH_X86 →
        kvmArgLine env = str "QEMU_CMD_KVM_ARG=-no-kvm\n"
        ∧ containsSub r.cmd (str "QEMU_CMD_KVM_ARG=-no-kvm\n") = true)
      ∧ (env.cpuArchitecture ∉ ARCH_X86 →
        kvmArgLine env = str "QEMU_CMD_KVM_ARG=\n"
        ∧ containsSub (kvmArgLine env) (str "-enable-kvm") = false
        ∧ containsSub (kvmArgLine env) (str "-no-kvm") = false
        ∧ containsSub r.cmd (str "QEMU_CMD_KVM_ARG=\n") = true))
    ∧ (env.isKvmSupport = true → env.hostOptions.disableKVM = false →
      kvmArgLine env = str "QEMU_CMD_KVM_ARG=-enable-kvm\n"
      ∧ containsSub r.cmd (str "QEMU_CMD_KVM_ARG=-enable-kvm\n") = true) := by
  obtain ⟨input1, downLines, diskScripts, nics3, qemuOpts, hek, hnd, hds, hrj, hqo, hr⟩ :=
    generateStartScript_ok_elim env st data r h
  have hcmd : r.cmd
      = cmdPrefixA env
          (inputVncArch env data (descMacOS input1.osName st.desc) (inputMacOS input1))
          downLines diskScripts
        ++ (kvmArgLine env
          ++ (cmdPrefixB env
            ++ (str " " ++ (qemuOpts ++ (str "\"\n" ++ incomingTail))))) := by
    rw [hr]
    show cmdPrefix env _ downLines diskScripts
        ++ str " " ++ qemuOpts ++ str "\"\n" ++ incomingTail = _
    rw [cmdPrefix]
    simp only [List.append_assoc]
  refine ⟨?_, ?_⟩
  · intro hoff
    have hk1 : (env.isKvmSupport && !env.hostOptions.disableKVM) = false := by
      rcases hoff with h1 | h1 <;> simp [h1]
    refine ⟨?_, ?_⟩
    · intro harch
      have hk : kvmArgLine env = str "QEMU_CMD_KVM_ARG=-no-kvm\n" := by
        rw [kvmArgLine, hk1]
        rw [if_neg (by simp)]
        rw [if_pos harch]
      exact ⟨hk, containsSub_of_split _ _ _ _ (by rw [hcmd, hk])⟩
    · intro harch
      have hk : kvmArgLine env = str "QEMU_CMD_KVM_ARG=\n" := by
        rw [kvmArgLine, hk1]
        rw [if_neg (by simp)]
        rw [if_neg harch]
      refine ⟨hk, ?_, ?_, containsSub_of_split _ _ _ _ (by rw [hcmd, hk])⟩
      · rw [hk]
        decide
      · rw [hk]
        decide
  · intro h1 h2
    have hk1 : (env.isKvmSupport && !env.hostOptions.disableKVM) = true := by
      simp [h1, h2]
    have hk : kvmArgLine env = str "QEMU_CMD_KVM_ARG=-enable-kvm\n" := by
      rw [kvmArgLine, hk1]
      rw [if_pos rfl]
    exact ⟨hk, containsSub_of_split _ _ _ _ (by rw [hcmd, hk])⟩

/-- Outside a migration start, the migration stage leaves the guest state
untouched. -/
theorem applyMigrate_snd_of_not (env : Env) (st : GuestState) (data : StartData)
    (d : GuestDesc) (input : StartInput) (h : data.needMigrate = false) :
    (applyMigrate env st data d input).2 = st := by
  rw [applyMigrate, h]
  rw [if_neg (by simp)]
  split
  · rfl
  · split <;> rfl

/-- The teardown lines depend only on the bridge lookup and the home
directory among the environment's fields. -/
theorem nicDownLines_congr (env env' : Env)
    (hb : env'.getBridgeDev = env.getBridgeDev) (hh : env'.homeDir = env.homeDir) :
    ∀ nics, nicDownLines env' nics = nicDownLines env nics := by
  intro nics
  induction nics with
  | nil => rfl
  | cons nic rest ih =>
    simp only [nicDownLines]
    have hp : getNicDownScriptPath env' nic = getNicDownScriptPath env nic := by
      simp only [getNicDownScriptPath, hb, hh]
    simp only [hp, ih]

/-- C9 (amended): start-script generation writes back into the guest — the
returned state's descriptor may differ from the input descriptor in
machine, bios, nics and disks, while every other descriptor field is
preserved, and outside a migration start the migration bookkeeping of the
state is untouched.  Stop-script generation and reconciliation, by
contrast, are pure functions of what they read: the stop script is
determined by the vnc/pid file paths, the monitor port base, the home
directory, the bridge lookup and the guest's uuid and nic list alone (in
particular it is independent of the extra-options iteration order), and the
unified command line is determined by the parsed option sequences of its
two texts alone. -/
theorem claim_C9_amended (env : Env) (st : GuestState) (data : StartData)
    (r : StartResult) (h : generateStartScript env st data = .ok r) :
    r.st.desc.uuid = st.desc.uuid
    ∧ r.st.desc.name = st.desc.name
    ∧ r.st.desc.mem = st.desc.mem
    ∧ r.st.desc.cpu = st.desc.cpu
    ∧ r.st.desc.vdi = st.desc.vdi
    ∧ r.st.desc.vga = st.desc.vga
    ∧ r.st.desc.bootOrder = st.desc.bootOrder
    ∧ r.st.desc.cdrom = st.desc.cdrom
    ∧ r.st.desc.isolatedDevices = st.desc.isolatedDevices
    ∧ r.st.desc.metadata = st.desc.metadata
    ∧ r.st.desc.extraOptions = st.desc.extraOptions
    ∧ r.st.desc.isSlave = st.desc.isSlave
    ∧ r.st.desc.isMaster = st.desc.isMaster
    ∧ (data.needMigrate = false →
        r.st.liveMigrateDestPort = st.liveMigrateDestPort
        ∧ r.st.liveMigrateUseTls = st.liveMigrateUseTls)
    ∧ (∀ (env' : Env) (st' : GuestState),
        env'.getBridgeDev = env.getBridgeDev → env'.homeDir = env.homeDir →
        env'.vncFilePath = env.vncFilePath → env'.pidFilePath = env.pidFilePath →
        env'.monitorPortBase = env.monitorPortBase →
        st'.desc.uuid = st.desc.uuid → st'.desc.nics = st.desc.nics →
        generateStopScript env' st' = generateStopScript env st)
    ∧ (∀ cur cur' src src' : Str,
        NewCmdline cur = NewCmdline cur' → NewCmdline src = NewCmdline src' →
        unifyMigrateQemuCmdline cur src = unifyMigrateQemuCmdline cur' src') := by
  obtain ⟨input1, downLines, diskScripts, nics3, qemuOpts, hek, hnd, hds, hrj, hqo, hr⟩ :=
    generateStartScript_ok_elim env st data r h
  subst hr
  refine ⟨?_, ?_, ?_, ?_, ?_, ?_, ?_, ?_, ?_, ?_, ?_, ?_, ?_, ?_, ?_, ?_⟩
  · show (descMacOS input1.osName st.desc).uuid = st.desc.uuid
    rw [descMacOS]
    split <;> rfl
  · show (descMacOS input1.osName st.desc).name = st.desc.name
    rw [descMacOS]
    split <;> rfl
  · show (descMacOS input1.osName st.desc).mem = st.desc.mem
    rw [descMacOS]
    split <;> rfl
  · show (descMacOS input1.osName st.desc).cpu = st.desc.cpu
    rw [descMacOS]
    split <;> rfl
  · show (descMacOS input1.osName st.desc).vdi = st.desc.vdi
    rw [descMacOS]
    split <;> rfl
  · show (descMacOS input1.osName st.desc).vga = st.desc.vga
    rw [descMacOS]
    split <;> rfl
  · show (descMacOS input1.osName st.desc).bootOrder = st.desc.bootOrder
    rw [descMacOS]
    split <;> rfl
  · show (descMacOS input1.osName st.desc).cdrom = st.desc.cdrom
    rw [descMacOS]
    split <;> rfl
  · show (descMacOS input1.osName st.desc).isolatedDevices = st.desc.isolatedDevices
    rw [descMacOS]
    split <;> rfl
  · show (descMacOS input1.osName st.desc).metadata = st.desc.metadata
    rw [descMacOS]
    split <;> rfl
  · show (descMacOS input1.osName st.desc).extraOptions = st.desc.extraOptions
    rw [descMacOS]
    split <;> rfl
  · show (descMacOS input1.osName st.desc).isSlave = st.desc.isSlave
    rw [descMacOS]
    split <;> rfl
  · show (descMacOS input1.osName st.desc).isMaster = st.desc.isMaster
    rw [descMacOS]
    split <;> rfl
  · intro hm
    have hsnd := applyMigrate_snd_of_not env st data (descMacOS input1.osName st.desc)
      (inputExtra env (descMacOS input1.osName st.desc) (startInputPre env data st input1))
      hm
    constructor
    · show (applyMigrate env st data (descMacOS input1.osName st.desc)
          (inputExtra env (descMacOS input1.osName st.desc)
            (startInputPre env data st input1))).2.liveMigrateDestPort
        = st.liveMigrateDestPort
      rw [hsnd]
    · show (applyMigrate env st data (descMacOS input1.osName st.desc)
          (inputExtra env (descMacOS input1.osName st.desc)
            (startInputPre env data st input1))).2.liveMigrateUseTls
        = st.liveMigrateUseTls
      rw [hsnd]
  · intro env' st' hb hh hv hp hm hu hn
    simp only [generateStopScript, hu, hn]
    have hdl := nicDownLines_congr env env' hb hh st.desc.nics
    have hhead : stopScriptHead env' st.desc.uuid = stopScriptHead env st.desc.uuid := by
      simp only [stopScriptHead, hv, hp, hm]
    simp only [hdl, hhead]
  · intro cur cur' src src' hc hs
    have hpc : parseCmdline cur = parseCmdline cur' := by
      simp only [parseCmdline, hc]
    have hps : parseCmdline src = parseCmdline src' := by
      simp only [parseCmdline, hs]
    simp only [unifyMigrateQemuCmdline, hpc, hps]

/-- `getNicDownScriptPath` never returns a Go error value: its only failure
is the nil-pointer panic. -/
theorem getNicDownScriptPath_no_err (env : Env) (nic : NicDesc) (m : Str) :
    getNicDownScriptPath env nic ≠ .error (.err m) := by
  rw [getNicDownScriptPath]
  cases env.getBridgeDev nic.bridge with
  | none =>
    intro h
    injection h with h2
    exact GenErr.noConfusion h2
  | some dev =>
    intro h
    exact Except.noConfusion h

/-- The teardown lines succeed exactly when every interface's bridge
resolves. -/
theorem nicDownLines_ok_iff (env : Env) (nics : List NicDesc) :
    (nicDownLines env nics).isOk = true
      ↔ ∀ n ∈ nics, (env.getBridgeDev n.bridge).isSome = true := by
  induction nics with
  | nil =>
    simp [nicDownLines, Except.isOk, Except.toBool]
  | cons nic rest ih =>
    rw [nicDownLines]
    cases hb : env.getBridgeDev nic.bridge with
    | none =>
      have hp : getNicDownScriptPath env nic = .error GenErr.nilDeref := by
        rw [getNicDownScriptPath, hb]
      rw [hp]
      constructor
      · intro h
        simp [Except.isOk, Except.toBool] at h
      · intro h
        have h2 := h nic (List.mem_cons_self nic rest)
        rw [hb] at h2
        exact absurd h2 (by decide)
    | some dev =>
      have hp : getNicDownScriptPath env nic
          = .ok (env.homeDir ++ str "/" ++ str "if-down-" ++ dev.bridgeName
              ++ str "-" ++ nic.ifname ++ str ".sh") := by
        rw [getNicDownScriptPath, hb]
      rw [hp]
      cases hrest : nicDownLines env rest with
      | error e =>
        rw [hrest] at ih
        constructor
        · intro h
          simp [Except.isOk, Except.toBool] at h
        · intro h
          have h2 := ih.mpr (fun n hn => h n (List.mem_cons_of_mem nic hn))
          simp [Except.isOk, Except.toBool] at h2
      | ok restLines =>
        rw [hrest] at ih
        constructor
        · intro h n hn
          rcases List.mem_cons.mp hn with h1 | hn'
          · subst h1
            rw [hb]
            rfl
          · exact ih.mp rfl n hn'
        · intro h
          rfl

/-- The teardown lines never produce a Go error value. -/
theorem nicDownLines_no_err (env : Env) (nics : List NicDesc) :
    ∀ m, nicDownLines env nics ≠ .error (.err m) := by
  induction nics with
  | nil =>
    intro m h
    exact Except.noConfusion h
  | cons nic rest ih =>
    intro m
    rw [nicDownLines]
    cases hp : getNicDownScriptPath env nic with
    | error e =>
      cases e with
      | err m2 => exact absurd hp (getNicDownScriptPath_no_err env nic m2)
      | nilDeref =>
        intro h
        injection h with h2
        exact GenErr.noConfusion h2
    | ok p =>
      cases hrest : nicDownLines env rest with
      | error e =>
        cases e with
        | err m2 => exact absurd hrest (ih m2)
        | nilDeref =>
          intro h
          injection h with h2
          exact GenErr.noConfusion h2
      | ok restLines =>
        intro h
        exact Except.noConfusion h

/-- C10: stop-script generation has no Go error result — it succeeds exactly
when every interface's bridge resolves, and an unresolved bridge is a
nil-pointer panic, never an error value; by contrast the launch-side
per-interface script generation checks the same lookup and returns an
error. -/
theorem claim_C10_stop_script (env : Env) (st : GuestState) :
    ((generateStopScript env st).isOk = true
      ↔ ∀ n ∈ st.desc.nics, (env.getBridgeDev n.bridge).isSome = true)
    ∧ (∀ m, generateStopScript env st ≠ .error (.err m))
    ∧ (∀ (sl : Bool) (n : NicDesc), env.getBridgeDev n.bridge = none →
        generateNicScripts env sl n
          = .error (.err (str "Can't find bridge " ++ n.bridge))) := by
  refine ⟨?_, ?_, ?_⟩
  · rw [generateStopScript]
    cases hnd : nicDownLines env st.desc.nics with
    | error e =>
      constructor
      · intro h
        simp [Except.isOk, Except.toBool] at h
      · intro h
        have h2 := (nicDownLines_ok_iff env st.desc.nics).mpr h
        rw [hnd] at h2
        simp [Except.isOk, Except.toBool] at h2
    | ok lines =>
      constructor
      · intro h
        refine (nicDownLines_ok_iff env st.desc.nics).mp ?_
        rw [hnd]
        rfl
      · intro h
        rfl
  · intro m
    rw [generateStopScript]
    cases hnd : nicDownLines env st.desc.nics with
    | error e =>
      cases e with
      | err m2 => exact absurd hnd (nicDownLines_no_err env st.desc.nics m2)
      | nilDeref =>
        intro h
        injection h with h2
        exact GenErr.noConfusion h2
    | ok lines =>
      intro h
      exact Except.noConfusion h
  · intro sl n hb
    rw [generateNicScripts, hb]

/-! ## Concrete host and guest fixtures

A minimal host environment (all collaborators total and successful) and
two small guests, used to instantiate the `generateStartScript` theorems
on concrete runs. -/

def envEx : Env where
  isKvmSupport := true
  isHugepagesEnabled := false
  isAarch64 := false
  hugepageSizeKb := 2048
  cpuArchitecture := Arch_x86_64
  isNestedVirtualization := false
  isProcessorIntel := true
  isProcessorAmd := false
  getBridgeDev := fun _ => some {}
  generateIfupScripts := fun _ _ _ _ => .ok ()
  generateIfdownScripts := fun _ _ _ _ => .ok ()
  homeDir := str "/opt/cloud/workspace/servers/svr1"
  pidFilePath := str "/opt/cloud/pid"
  vncFilePath := str "/opt/cloud/vnc"
  stateFilePathRootPrefixValue := str "/opt/cloud/state"
  qemuLogPath := str "/opt/cloud/log"
  encryptKeyPath := str "/opt/cloud/key"
  saveEncryptKeyFile := fun _ => .ok ()
  generateDiskSetupScripts := fun _ => .ok []
  getIsolatedDeviceQemuParams := fun _ => []
  getQemu := fun _ => str "/usr/bin/qemu-system-x86_64"
  vpcOvnEncapCost := str "58"
  getHmpMonitorPort := fun v => v + 55900
  getQmpMonitorPort := fun v => v + 56100
  getFreePortByBase := fun b => b
  generateStartOptions := fun _ => .ok (str "OPTS")
  extraOptionsOrder := fun l => l
  hostOptions := {}
  monitorPortBase := 55900
  liveMigratePortBase := 4396

/-- The same host with hardware virtualization reported unavailable. -/
def envNoKvm : Env := { envEx with isKvmSupport := false }

/-- A macOS guest with one interface and one disk. -/
def stMacEx : GuestState :=
  { desc :=
      { metadata := { osName := some (str "macOS") },
        nics := [{ ifname := str "eth0", bridge := str "br0" }],
        disks := [{ diskIndex := 0 }] } }

/-- An Android guest with two interfaces. -/
def stAndEx : GuestState :=
  { desc :=
      { metadata := { osName := some (str "Android") },
        nics := [{ ifname := str "eth0", bridge := str "br0" },
                 { ifname := str "eth1", bridge := str "br1" }] } }

def dataEx : StartData := {}

/-- The same host, with the runtime visiting the extra-options map in the
reverse enumeration order. -/
def envRevEx : Env := { envEx with extraOptionsOrder := List.reverse }

/-- A plain guest carrying two extra options. -/
def stExtraEx : GuestState :=
  { desc := { extraOptions := [(str "a", [str "1"]), (str "b", [str "2"])] } }

/-- C6 witness: the concrete macOS guest comes out with machine q35 and
UEFI firmware. -/
theorem claim_C6_witness :
    (generateStartScript envEx stMacEx dataEx).map
        (fun r => (r.input.machine, r.input.bios))
      = .ok (VM_MACHINE_TYPE_Q35, BIOS_UEFI) := by
  cases hok : generateStartScript envEx stMacEx dataEx with
  | error e =>
    have hko : (generateStartScript envEx stMacEx dataEx).isOk = true := rfl
    rw [hok] at hko
    simp [Except.isOk, Except.toBool] at hko
  | ok r =>
    have hc := claim_C6_macos_rules envEx stMacEx dataEx r (by decide) hok
    simp only [Except.map]
    rw [hc.1, hc.2.1]

/-- C7 witness: the concrete two-interface Android guest comes out with
exactly one interface. -/
theorem claim_C7_witness :
    (generateStartScript envEx stAndEx dataEx).map (fun r => r.input.nics.length)
      = .ok 1 := by
  cases hok : generateStartScript envEx stAndEx dataEx with
  | error e =>
    have hko : (generateStartScript envEx stAndEx dataEx).isOk = true := rfl
    rw [hok] at hko
    simp [Except.isOk, Except.toBool] at hko
  | ok r =>
    have hc := claim_C7_android_single_nic envEx stAndEx dataEx r (by decide) (by decide) hok
    simp only [Except.map]
    rw [hc.1]

/-- C8 witness: on the concrete x86 host with virtualization unavailable,
the generated script contains the emulation-mode assignment line. -/
theorem claim_C8_witness :
    (generateStartScript envNoKvm stMacEx dataEx).map
        (fun r => containsSub r.cmd (str "QEMU_CMD_KVM_ARG=-no-kvm\n"))
      = .ok true := by
  cases hok : generateStartScript envNoKvm stMacEx dataEx with
  | error e =>
    have hko : (generateStartScript envNoKvm stMacEx dataEx).isOk = true := rfl
    rw [hok] at hko
    simp [Except.isOk, Except.toBool] at hko
  | ok r =>
    have hc := claim_C8_kvm_flag envNoKvm stMacEx dataEx r hok
    have h2 := ((hc.1 (Or.inl rfl)).1 (by decide)).2
    simp only [Except.map]
    rw [h2]

/-- C9 counterexample, refuting both halves of the original claim for
start-script generation.  First, the concrete macOS run hands back a guest
state whose descriptor's machine field differs from the input descriptor's:
the call writes the q35 normalization into the guest.  Second, two runs on
the same guest, data and host that differ only in the map-iteration order
the Go runtime picks for `Desc.ExtraOptions` resolve different extra-option
blocks, so identical inputs need not produce byte-identical output. -/
theorem claim_C9_counterexample :
    ((generateStartScript envEx stMacEx dataEx).map (fun r => r.st.desc.machine)
      ≠ .ok stMacEx.desc.machine)
    ∧ (generateStartScript envRevEx stExtraEx dataEx).map (fun r => r.input.extraOptions)
      ≠ (generateStartScript envEx stExtraEx dataEx).map (fun r => r.input.extraOptions) := by
  constructor
  · intro h
    have h2 : (generateStartScript envEx stMacEx dataEx).map (fun r => r.st.desc.machine)
        = .ok (str "q35") := rfl
    rw [h2] at h
    injection h with h3
    exact absurd h3 (by decide)
  · intro h
    have ha : (generateStartScript envRevEx stExtraEx dataEx).map
          (fun r => r.input.extraOptions)
        = .ok [extraOptions envRevEx stExtraEx.desc] := rfl
    have hb : (generateStartScript envEx stExtraEx dataEx).map
          (fun r => r.input.extraOptions)
        = .ok [extraOptions envEx stExtraEx.desc] := rfl
    rw [ha, hb] at h
    injection h with h2
    injection h2 with h3
    exact absurd h3 (by decide)

/-- C9 witness: on the concrete macOS run the amended theorem applies — the
descriptor's name survives the call, and the stop script is unchanged when
only the extra-options iteration order differs. -/
theorem claim_C9_witness :
    (generateStartScript envEx stMacEx dataEx).map (fun r => r.st.desc.name)
        = .ok stMacEx.desc.name
      ∧ generateStopScript envRevEx stMacEx = generateStopScript envEx stMacEx := by
  cases hok : generateStartScript envEx stMacEx dataEx with
  | error e =>
    have hko : (generateStartScript envEx stMacEx dataEx).isOk = true := rfl
    rw [hok] at hko
    simp [Except.isOk, Except.toBool] at hko
  | ok r =>
    have hc := claim_C9_amended envEx stMacEx dataEx r hok
    constructor
    · simp only [Except.map]
      rw [hc.2.1]
    · exact hc.2.2.2.2.2.2.2.2.2.2.2.2.2.2.1 envRevEx stMacEx rfl rfl rfl rfl rfl rfl rfl
